import Mathlib

/-!
Shallow embedding of the turn-resolution pipeline of the chatbot backend
(`src/index.js`) and proofs about it.

Modelling conventions, used throughout:

* JS strings are Lean `String`s (lists of characters); `undefined`/missing
  optional config fields are `Option.none`; a missing FAQ answer (`f.a`
  undefined) is modelled as the empty string, which agrees with every
  truthiness test the source performs on it.
* JS numbers that the source only ever compares (the semantic threshold) are
  exact rationals; the floating-point score `inter / Math.sqrt(den)` is
  modelled by the pair `(inter, den)` together with comparison functions that
  are proved below (`Score.gtB_iff_real`, `Score.geThreshold_iff_real`) to
  implement the exact real-number comparisons of the values
  `inter / Real.sqrt den`.
* The tenant-configurable greeting / low-info regexes (compiled by
  `safeRegexUnion` from `behavior.greetingPatterns` / `lowInfoPatterns`) are
  modelled as opaque `String → Bool` fields of the behavior config, with the
  source's default patterns modelled concretely (`defaultGreetingTest`,
  `defaultLowInfoTest`).  The fixed regexes of the pipeline (recall, pricing,
  closing) are modelled concretely via word-boundary phrase search, matching
  the JS `\b(w1|w2|...)\b` semantics on the lower-cased message.
* The completion provider (`openai.chat.completions.create`) is an external
  collaborator; a turn takes its outcome (`ProviderResult`) as an input:
  either a successful response with an optional message content, or a
  rejection (the `catch` path).
* Express session state is the `Session` structure, mutated functionally.
-/

/- ---------- characters and JS-like string helpers ---------- -/

/-- JS regex word character (`\w` = `[A-Za-z0-9_]`). -/
def wordCharB (c : Char) : Bool :=
  (('a' ≤ c) && (c ≤ 'z')) || (('A' ≤ c) && (c ≤ 'Z')) || (('0' ≤ c) && (c ≤ '9')) || (c == '_')

/-- ASCII whitespace, modelling the JS `\s` class on the inputs that occur here. -/
def isSpaceB (c : Char) : Bool :=
  (c == ' ') || (c == '\t') || (c == '\n') || (c == '\r')

/-- `phrase` occurs in `s` starting at index `i`, with a word boundary (`\b`)
on both sides.  All phrases used below start and end with word characters, so
`\b` means: the previous character (if any) and the following character (if
any) are non-word characters. -/
def boundedAt (s phrase : List Char) (i : ℕ) : Bool :=
  phrase.isPrefixOf (s.drop i)
    && (i == 0 || !wordCharB (s.getD (i - 1) ' '))
    && !wordCharB (s.getD (i + phrase.length) ' ')

/-- JS `/\bphrase\b/.test(s)` for a fixed word-character-delimited phrase. -/
def boundedContains (s phrase : String) : Bool :=
  (List.range (s.data.length + 1)).any (fun i => boundedAt s.data phrase.data i)

/-- The recall trigger `/\b(last message|what did you just say|what was your previous reply)\b/i`
(line 301 of `src/index.js`), applied to the already lower-cased message. -/
def testRecall (s : String) : Bool :=
  ["last message", "what did you just say", "what was your previous reply"].any
    (fun w => boundedContains s w)

/-- The pricing-intent pattern `/\b(price|pricing|cost|fee|charge|subscription|money)\b/i`
(lines 335 and 391 of `src/index.js`). -/
def testPricing (s : String) : Bool :=
  ["price", "pricing", "cost", "fee", "charge", "subscription", "money"].any
    (fun w => boundedContains s w)

/-- The closing-intent pattern `/\b(no|nope|that's all|nothing|i'm good|im good|all set)\b/i`
(line 344 of `src/index.js`). -/
def testClosing (s : String) : Bool :=
  ["no", "nope", "that\x27s all", "nothing", "i\x27m good", "im good", "all set"].any
    (fun w => boundedContains s w)

/-- The default greeting regex `\b(hi|hello|hey|yo|howdy|good (morning|afternoon|evening))\b`,
expanded into its phrase alternatives. -/
def defaultGreetingTest (s : String) : Bool :=
  ["hi", "hello", "hey", "yo", "howdy", "good morning", "good afternoon", "good evening"].any
    (fun w => boundedContains s w)

/-- `?`, `.` or `!` — the punctuation class of the default low-info pattern. -/
def isPunct3 (c : Char) : Bool := (c == '?') || (c == '.') || (c == '!')

/-- `?` or `!` — the `[?!]` class of the default low-info pattern. -/
def isBang2 (c : Char) : Bool := (c == '?') || (c == '!')

/-- The default low-info regex
`^(\s*[\?\.!]*\s*|what[?!]*|are you[?!]*|huh[?!]*|idk|ok|k|sure|yeah|yep|nope|who(dis)?|sup)\s*$`.
The anchored match is computed by stripping trailing whitespace (absorbed by
the final `\s*$`) and testing the three shapes of alternatives. -/
def defaultLowInfoTest (s : String) : Bool :=
  let stripped := ((s.data.reverse.dropWhile isSpaceB).reverse)
  (((stripped.dropWhile isSpaceB).dropWhile isPunct3).isEmpty)
    || (["what", "are you", "huh"].any
          (fun w => w.data.isPrefixOf stripped && (stripped.drop w.length).all isBang2))
    || (["idk", "ok", "k", "sure", "yeah", "yep", "nope", "who", "whodis", "sup"].any
          (fun w => stripped == w.data))

/-- JS `String.prototype.trim` (over the ASCII whitespace that occurs here). -/
def jsTrim (s : String) : String :=
  String.mk (((s.data.dropWhile isSpaceB).reverse.dropWhile isSpaceB).reverse)

/-- `messageRaw.trim().toLowerCase()` (line 298 of `src/index.js`). -/
def jsLower (s : String) : String :=
  String.mk ((jsTrim s).data.map Char.toLower)

/-- JS `a || b` for an optional string: the default is used when the value is
absent or empty (falsy). -/
def jsOr (v : Option String) (d : String) : String :=
  match v with
  | some s => if s = "" then d else s
  | none => d

/-- ES `GetSubstitution` for a string-pattern `replace`: in the replacement,
`$$` becomes `$`, `$&` the matched text, `$` + backtick the part of the
subject before the match, and `$` + apostrophe the part after it.  With a
string pattern there are no capture groups, so `$n` and `$<` stay literal
(the catch-all case), as does any other `$`. -/
def getSubstitution (matched before after : List Char) : List Char → List Char
  | [] => []
  | '$' :: '$' :: rest => '$' :: getSubstitution matched before after rest
  | '$' :: '&' :: rest => matched ++ getSubstitution matched before after rest
  | '$' :: '\x60' :: rest => before ++ getSubstitution matched before after rest
  | '$' :: '\x27' :: rest => after ++ getSubstitution matched before after rest
  | c :: rest => c :: getSubstitution matched before after rest

/-- Scan for the first occurrence of `pat` (accumulating the consumed prefix
in reverse); on a match, return before ++ substituted replacement ++ after.
The `[]` case also honours the empty-pattern match of JS `indexOf` on the
empty subject. -/
def replaceFirstAux (pat repl : List Char) : List Char → List Char → List Char
  | acc, [] =>
    if pat.isEmpty then acc.reverse ++ getSubstitution [] acc.reverse [] repl
    else acc.reverse
  | acc, c :: rest =>
    if pat.isPrefixOf (c :: rest) then
      acc.reverse ++ getSubstitution pat acc.reverse ((c :: rest).drop pat.length) repl
        ++ (c :: rest).drop pat.length
    else replaceFirstAux pat repl (c :: acc) rest

/-- JS `s.replace(pat, repl)` with a string pattern: first occurrence only,
with `$`-substitution applied to the replacement. -/
def replaceFirst (s pat repl : String) : String :=
  String.mk (replaceFirstAux pat.data repl.data [] s.data)

/-- JS `Array.prototype.join(sep)`. -/
def joinSep (sep : String) : List String → String
  | [] => ""
  | [x] => x
  | x :: y :: xs => x ++ sep ++ joinSep sep (y :: xs)

/- ---------- tokenizer and overlap scorer (lines 172-192) ---------- -/

/-- The fixed stop-word set `DEFAULT_STOPWORDS` (lines 172-176). -/
def DEFAULT_STOPWORDS : List String :=
  ["the", "a", "an", "and", "or", "but", "of", "to", "in", "on", "for", "with", "about",
   "is", "it", "this", "that", "i", "you", "we", "me", "my", "your", "our", "at", "as",
   "by", "be", "are", "was", "were", "from", "can", "how", "what", "when", "where", "why",
   "do", "did", "does", "please", "could", "would", "should", "tell", "say", "more",
   "expand", "details", "detail", "info"]

/-- A character kept by `tokenize`'s `replace(/[^a-z0-9\s]/g, " ")` after
lower-casing. -/
def isTokenChar (c : Char) : Bool :=
  (('a' ≤ c) && (c ≤ 'z')) || (('0' ≤ c) && (c ≤ '9'))

/-- Split a character list at every space, keeping (possibly empty) pieces. -/
def splitSpacesAux : List Char → List Char → List (List Char)
  | [], acc => [acc.reverse]
  | c :: rest, acc =>
    if c = ' ' then acc.reverse :: splitSpacesAux rest []
    else splitSpacesAux rest (c :: acc)

/-- `tokenize` (lines 177-183): lower-case, replace every character that is
not `[a-z0-9]` or whitespace by a space, split on whitespace runs, drop empty
words and stop words.  Since every whitespace character is itself a split
point of `/\s+/`, mapping every non-alphanumeric character to a space and
splitting at spaces yields exactly the source's token list (empty pieces are
removed by the `w &&` filter). -/
def tokenize (s : String) : List String :=
  let cleaned := s.data.map (fun c =>
    let lc := c.toLower
    if isTokenChar lc then lc else ' ')
  ((splitSpacesAux cleaned []).map String.mk).filter
    (fun w => w != "" && !(DEFAULT_STOPWORDS.contains w))

/-- The result of `overlapScore` (lines 184-192): the source computes the
float `inter / Math.sqrt(aSet.size * bSet.size)`; we record the pair
`(inter, den)` whose value is `inter / √den`.  The comparisons performed on
scores are implemented exactly on this representation and proved correct
against the real-number values below. -/
structure Score where
  inter : ℕ
  den : ℕ
deriving DecidableEq, Repr

/-- `overlapScore` (lines 184-192).  If either token list is empty the score
is 0 (encoded `⟨0, 1⟩`); otherwise `inter` is the number of distinct tokens
of `a` that also occur in `b` and `den = |aSet| * |bSet|` (the `denom ? ... : 0`
guard of the source is vacuous there since both set sizes are positive). -/
def overlapScore (aTokens bTokens : List String) : Score :=
  if aTokens.isEmpty || bTokens.isEmpty then ⟨0, 1⟩
  else
    let aSet := aTokens.dedup
    let bSet := bTokens.dedup
    ⟨(aSet.filter (fun t => bSet.contains t)).length, aSet.length * bSet.length⟩

/-- The square of a score's value, as an exact rational:
`(inter / √den)² = inter² / den`.  Used only in proofs. -/
def Score.key (s : Score) : ℚ := ((s.inter : ℚ)) ^ 2 / (s.den : ℚ)

/-- `s1 > s2` on score values (`score > best.score`, line 223):
`i₁/√d₁ > i₂/√d₂ ⟺ i₁²·d₂ > i₂²·d₁` for non-negative numerators and positive
denominators (proved in `Score.gtB_iff_real`). -/
def Score.gtB (s1 s2 : Score) : Bool :=
  decide (s2.inter ^ 2 * s1.den < s1.inter ^ 2 * s2.den)

/-- `s ≥ q` for a rational threshold `q` (`best.score >= minScore`, line 226):
a non-positive threshold is below every score; for `q > 0`,
`i/√d ≥ q ⟺ i²·den(q)² ≥ num(q)²·d` (proved in `Score.geThreshold_iff_real`). -/
def Score.geThreshold (s : Score) (q : ℚ) : Bool :=
  if q.num ≤ 0 then true
  else decide (q.num ^ 2 * (s.den : ℤ) ≤ (s.inter : ℤ) ^ 2 * (q.den : ℤ) ^ 2)

/-- The source's default semantic threshold `0.18`, as the exact rational
`9/50`. -/
def DEFAULT_MIN_SCORE : ℚ := Rat.mk' 9 50 (by norm_num) (by norm_num [Nat.Coprime])

/- ---------- tenant configuration (data model) ---------- -/

/-- A value of the tenant's knowledge map: a scalar fact or a fact list. -/
inductive KVal where
  | str (s : String)
  | arr (l : List String)
deriving DecidableEq, Repr

/-- JS truthiness of a knowledge value: an empty string is falsy, every
array (even empty) is truthy. -/
def kvalTruthy : KVal → Bool
  | .str s => s != ""
  | .arr _ => true

/-- The string carried by a knowledge value.  For a scalar this is the value
itself; the source would surface a raw array unchanged (`return cfg.knowledge.pricing_policy`),
which we render by its JS string coercion — no claim exercises a list-valued
`pricing_policy`. -/
def kvalText : KVal → String
  | .str s => s
  | .arr l => joinSep "," l

/-- An FAQ entry (`{q, keywords, a}`).  A missing `q`/`a` is modelled as `""`,
matching the truthiness tests the source applies to them. -/
structure FAQ where
  q : String := ""
  keywords : List String := []
  a : String := ""
deriving DecidableEq, Repr

/-- The tenant's `fallback` config object. -/
structure FallbackCfg where
  answer : Option String := none
  secondAnswer : Option String := none
  attachMenuOnFallback : Option Bool := none

/-- The tenant's `behavior` config object (the fields read via `bval`).
`greetingTest` / `lowInfoTest` model the regexes compiled by `safeRegexUnion`
from `greetingPatterns` / `lowInfoPatterns`: `none` stands for an absent (or
non-compiling) pattern list, which falls back to the built-in default. -/
structure BehaviorCfg where
  enableGreeter : Option Bool := none
  greeterMessage : Option String := none
  clarifyMessage : Option String := none
  menuItemCount : Option Int := none
  semanticMinScore : Option ℚ := none
  historyTurns : Option ℕ := none
  lastMessageTemplate : Option String := none
  noLastMessageTemplate : Option String := none
  enableNonRepeatingFallback : Option Bool := none
  errorNoteOnce : Option String := none
  greetingTest : Option (String → Bool) := none
  lowInfoTest : Option (String → Bool) := none

/-- A tenant configuration (the fields of the client JSON the pipeline reads).
The knowledge map is a key-value list in object-insertion order. -/
structure Cfg where
  faqs : List FAQ := []
  knowledge : List (String × KVal) := []
  welcomeMessage : Option String := none
  closingMessage : Option String := none
  commonQuestions : List String := []
  fallback : Option FallbackCfg := none
  behavior : Option BehaviorCfg := none

/-- `bval(cfg, path, fallback)` (lines 99-107): read a behavior field,
falling back when `behavior` or the field is absent. -/
def bval {α : Type} (cfg : Cfg) (f : BehaviorCfg → Option α) (d : α) : α :=
  (cfg.behavior.bind f).getD d

/- ---------- pricing line (lines 86-96) ---------- -/

/-- The fixed pricing keyword vocabulary of `getPricingLine` (line 90). -/
def pricingVocab : List String :=
  ["pricing", "cost", "monthly", "fee", "charge", "subscription", "price", "money"]

/-- An FAQ whose (lower-cased) keyword set meets the pricing vocabulary. -/
def faqHasPricingKeyword (f : FAQ) : Bool :=
  f.keywords.any (fun k => pricingVocab.contains (String.mk (k.data.map Char.toLower)))

/-- The hard-coded default pricing sentence (line 95). -/
def defaultPricingLine : String :=
  "Our service costs $35 per month with an initial setup fee of $75."

/-- `getPricingLine` (lines 86-96): the answer of the first FAQ with a
pricing keyword; else the knowledge map's `pricing_policy` if truthy; else
the hard-coded default. -/
def getPricingLine (cfg : Cfg) : String :=
  match cfg.faqs.find? faqHasPricingKeyword with
  | some f => f.a
  | none =>
    match cfg.knowledge.lookup "pricing_policy" with
    | some v => if kvalTruthy v then kvalText v else defaultPricingLine
    | none => defaultPricingLine

/- ---------- semantic matcher (lines 193-227) ---------- -/

/-- A matchable candidate: a label/question text and an answer. -/
structure Item where
  q : String
  a : String
deriving DecidableEq, Repr

/-- Helper for `collectKnowledgeSnippets`: `v.forEach((line, i) => out.push({q: k + " " + (i+1), a: line}))`. -/
def arrSnippetsAux (k : String) (i : ℕ) : List String → List Item
  | [] => []
  | line :: rest => ⟨k ++ " " ++ toString (i + 1), line⟩ :: arrSnippetsAux k (i + 1) rest

/-- Recursion over the knowledge entries for `collectKnowledgeSnippets`. -/
def knowledgeSnippetsAux : List (String × KVal) → List Item
  | [] => []
  | (k, KVal.arr l) :: rest => arrSnippetsAux k 0 l ++ knowledgeSnippetsAux rest
  | (k, KVal.str v) :: rest => ⟨k, v⟩ :: knowledgeSnippetsAux rest

/-- `collectKnowledgeSnippets` (lines 193-206): one snippet per scalar entry
(label = key), one per list element (label = key + 1-based index), in map
order. -/
def collectKnowledgeSnippets (cfg : Cfg) : List Item :=
  knowledgeSnippetsAux cfg.knowledge

/-- The candidate list of `bestSemanticMatch` (lines 208-213): FAQ entries
(`q` = question and keywords joined, `a` = answer) followed by the knowledge
snippets. -/
def semItems (cfg : Cfg) : List Item :=
  cfg.faqs.map (fun f =>
    ⟨joinSep " " ((f.q :: f.keywords).filter (fun x => x != "")), f.a⟩)
    ++ collectKnowledgeSnippets cfg

/-- The text a candidate is tokenized from: `` `${itm.q || ""} ${itm.a || ""}` `` (line 221). -/
def itemText (itm : Item) : String := itm.q ++ " " ++ itm.a

/-- The `items.forEach` loop of `bestSemanticMatch` (lines 220-224) with its
mutable `best`: replace the running best exactly when the new score is
strictly greater. -/
def bestLoop (sc : Item → Score) (best : Option (Item × Score)) : List Item → Option (Item × Score)
  | [] => best
  | itm :: rest =>
    let score := sc itm
    let best' := match best with
      | none => some (itm, score)
      | some b => if score.gtB b.2 then some (itm, score) else some b
    bestLoop sc best' rest

/-- `bestSemanticMatch` (lines 207-227). -/
def bestSemanticMatch (cfg : Cfg) (userMsg : String) (minScore : ℚ) : Option Item :=
  let items := semItems cfg
  if items.isEmpty then none
  else
    let uTok := tokenize userMsg
    match bestLoop (fun itm => overlapScore uTok (tokenize (itemText itm))) none items with
    | some best => if best.2.geThreshold minScore then some best.1 else none
    | none => none

/- ---------- menus (lines 230-234) ---------- -/

/-- `menuFromCommonQuestions` (lines 230-234). -/
def menuFromCommonQuestions (cfg : Cfg) (count : ℕ) : String :=
  let qs := cfg.commonQuestions.take count
  if qs.isEmpty then ""
  else "\n\nHere are a few things I can help with:\n– " ++ joinSep "\n– " qs

/- ---------- session state ---------- -/

/-- The role tag of a history entry. -/
inductive Role where
  | user
  | assistant
deriving DecidableEq, Repr

/-- One history entry (`{role, content}`). -/
structure Msg where
  role : Role
  content : String
deriving DecidableEq, Repr

/-- Per-(visitor, tenant) session state (line 294). -/
structure Session where
  askedExtra : Bool := false
  history : List Msg := []
  usedFallbackOnce : Bool := false
  errorNotified : Bool := false
deriving DecidableEq, Repr

/-- The zero-valued session created on first contact (line 294). -/
def initSession : Session := {}

/-- JS `arr.slice(-n)`: keep the last `n` entries — except that `slice(-0)`
is `slice(0)`, the whole array (relevant when `historyTurns` is 0). -/
def sliceLast {α : Type} (l : List α) (n : ℕ) : List α :=
  if n = 0 then l else l.drop (l.length - n)

/-- The history update every reply-producing branch performs: push the user
message and the reply, then `slice(-2 * historyTurns)`. -/
def pushTurn (hist : List Msg) (userText reply : String) (historyTurns : ℕ) : List Msg :=
  sliceLast (hist ++ [⟨Role.user, userText⟩, ⟨Role.assistant, reply⟩]) (2 * historyTurns)

/-- Outcome of the external completion provider call: a response carrying
`rsp.choices?.[0]?.message?.content` (possibly absent), or a rejection. -/
inductive ProviderResult where
  | success (content : Option String)
  | failure
deriving DecidableEq, Repr

/- ---------- effective behavior values (lines 270-291) ---------- -/

/-- Effective `enableGreeter` (line 270). -/
def enableGreeterEff (cfg : Cfg) : Bool := bval cfg (fun b => b.enableGreeter) true

/-- Effective `greeterMessage` (line 271): behavior field, else
`cfg.welcomeMessage ||` the built-in greeting. -/
def greeterMessageEff (cfg : Cfg) : String :=
  bval cfg (fun b => b.greeterMessage)
    (jsOr cfg.welcomeMessage "Hi! I’m here to help with setup, support, or pricing—what do you need?")

/-- Effective `clarifyMessage` (line 272). -/
def clarifyMessageEff (cfg : Cfg) : String :=
  bval cfg (fun b => b.clarifyMessage)
    "Got it—what do you need help with (installation steps, pricing, or lead setup)?"

/-- Effective `menuItemCount` (line 273). -/
def menuItemCountEff (cfg : Cfg) : Int := bval cfg (fun b => b.menuItemCount) 4

/-- Effective semantic threshold: `bval(..., 0.18)` (line 274) combined with
the call-site coercion `Number(minSemantic) || 0.18` (line 323), which maps a
configured 0 back to the default (but lets a negative value through). -/
def minSemanticEff (cfg : Cfg) : ℚ :=
  let v := bval cfg (fun b => b.semanticMinScore) DEFAULT_MIN_SCORE
  if v = 0 then DEFAULT_MIN_SCORE else v

/-- Effective `memory.historyTurns` (line 275). -/
def historyTurnsEff (cfg : Cfg) : ℕ := bval cfg (fun b => b.historyTurns) 8

/-- Effective `memory.lastMessageTemplate` (line 276). -/
def lastTplEff (cfg : Cfg) : String :=
  bval cfg (fun b => b.lastMessageTemplate) "My last message was: \"\x7b\x7btext\x7d\x7d\""

/-- Effective `memory.noLastMessageTemplate` (line 277). -/
def lastNoneTplEff (cfg : Cfg) : String :=
  bval cfg (fun b => b.noLastMessageTemplate) "I haven’t sent a prior message yet in this session."

/-- Effective `enableNonRepeatingFallback` (line 278). -/
def enableNRFEff (cfg : Cfg) : Bool := bval cfg (fun b => b.enableNonRepeatingFallback) true

/-- Effective `fallback.attachMenuOnFallback ?? true` (line 279). -/
def attachMenuEff (cfg : Cfg) : Bool :=
  (cfg.fallback.bind (fun f => f.attachMenuOnFallback)).getD true

/-- Effective first fallback text `cfg?.fallback?.answer || ...` (line 280). -/
def fallback1Eff (cfg : Cfg) : String :=
  jsOr (cfg.fallback.bind (fun f => f.answer))
    "I’m not certain yet—could you clarify what you need (installation steps, pricing, or lead setup)?"

/-- Effective second fallback text `cfg?.fallback?.secondAnswer || ...` (line 281). -/
def fallback2Eff (cfg : Cfg) : String :=
  jsOr (cfg.fallback.bind (fun f => f.secondAnswer))
    "I can help with installation, pricing, or lead setup."

/-- Effective `errorNoteOnce` (line 282). -/
def errorNoteEff (cfg : Cfg) : String :=
  bval cfg (fun b => b.errorNoteOnce) "(temporary issue, trying again shortly)"

/-- The compiled greeting test `GREETING_RE.test` (lines 285-287). -/
def greetingTestEff (cfg : Cfg) : String → Bool :=
  (cfg.behavior.bind (fun b => b.greetingTest)).getD defaultGreetingTest

/-- The compiled low-info test `LOWINFO_RE.test` (lines 289-291). -/
def lowInfoTestEff (cfg : Cfg) : String → Bool :=
  (cfg.behavior.bind (fun b => b.lowInfoTest)).getD defaultLowInfoTest

/-- The `{{text}}` placeholder of the last-message template. -/
def tplPlaceholder : String := "\x7b\x7btext\x7d\x7d"

/- ---------- the turn-resolution stages (lines 300-426) ---------- -/

/-- Stage 0, recall (lines 300-308): templated echo of the last assistant
message.  `last?.content` is truthy only for a present, non-empty content. -/
def recallStage (cfg : Cfg) (s : Session) (lower messageRaw : String) :
    Option (String × Session) :=
  if testRecall lower then
    let last := s.history.reverse.find? (fun m => m.role == Role.assistant)
    let reply :=
      match last with
      | some m =>
        if m.content = "" then lastNoneTplEff cfg
        else replaceFirst (lastTplEff cfg) tplPlaceholder m.content
      | none => lastNoneTplEff cfg
    some (reply, { s with history := pushTurn s.history messageRaw reply (historyTurnsEff cfg) })
  else none

/-- Stage 0.5, greeter / low-info (lines 310-320). -/
def greeterStage (cfg : Cfg) (s : Session) (lower messageRaw : String) :
    Option (String × Session) :=
  if enableGreeterEff cfg && (greetingTestEff cfg lower || lowInfoTestEff cfg lower) then
    let base := if greetingTestEff cfg lower then greeterMessageEff cfg else clarifyMessageEff cfg
    let reply :=
      if 0 < menuItemCountEff cfg then
        base ++ menuFromCommonQuestions cfg (menuItemCountEff cfg).toNat
      else base
    some (reply,
      { s with askedExtra := true,
               history := pushTurn s.history messageRaw reply (historyTurnsEff cfg) })
  else none

/-- Stage 1, semantic match (lines 322-332): fires only when the match has a
truthy answer (`sem?.a`). -/
def semanticStage (cfg : Cfg) (s : Session) (lower messageRaw : String) :
    Option (String × Session) :=
  match bestSemanticMatch cfg lower (minSemanticEff cfg) with
  | some itm =>
    if itm.a = "" then none
    else some (itm.a,
      { s with askedExtra := true, usedFallbackOnce := false,
               history := pushTurn s.history messageRaw itm.a (historyTurnsEff cfg) })
  | none => none

/-- Stage 2, pricing guardrail (lines 334-341). -/
def pricingStage (cfg : Cfg) (s : Session) (lower messageRaw : String) :
    Option (String × Session) :=
  if testPricing lower then
    let reply := getPricingLine cfg
    some (reply, { s with history := pushTurn s.history messageRaw reply (historyTurnsEff cfg) })
  else none

/-- Stage 3, closing (lines 343-350). -/
def closingStage (cfg : Cfg) (s : Session) (lower messageRaw : String) :
    Option (String × Session) :=
  if s.askedExtra && testClosing lower then
    let closing := cfg.closingMessage.getD ""
    some (closing,
      { s with history := pushTurn s.history messageRaw closing (historyTurnsEff cfg) })
  else none

/-- Stages 4/5, grounded model fallback and its catch (lines 352-426).
On success the trimmed provider text is overridden with the authoritative
pricing line when the message matches the pricing pattern (lines 389-393),
an empty/absent text falls back to `fallback1` (+ menu); on rejection the
non-repeating escalation of the catch block runs. -/
def generativeStage (cfg : Cfg) (s : Session) (lower messageRaw : String)
    (p : ProviderResult) : String × Session :=
  match p with
  | ProviderResult.success content =>
    let text0 : Option String := content.map jsTrim
    let text : Option String :=
      if testPricing lower then some (getPricingLine cfg) else text0
    let good : Bool := match text with
      | some t => t != ""
      | none => false
    let reply0 := match text with
      | some t => if t = "" then fallback1Eff cfg else t
      | none => fallback1Eff cfg
    let reply :=
      if !good && attachMenuEff cfg && 0 < menuItemCountEff cfg then
        reply0 ++ menuFromCommonQuestions cfg (menuItemCountEff cfg).toNat
      else reply0
    (reply,
      { s with askedExtra := true, usedFallbackOnce := !good,
               history := pushTurn s.history messageRaw reply (historyTurnsEff cfg) })
  | ProviderResult.failure =>
    if enableNRFEff cfg && !s.usedFallbackOnce then
      let r1 := fallback1Eff cfg
      let r2 :=
        if attachMenuEff cfg && 0 < menuItemCountEff cfg then
          r1 ++ menuFromCommonQuestions cfg (menuItemCountEff cfg).toNat
        else r1
      let r3 :=
        if !s.errorNotified && errorNoteEff cfg != "" then r2 ++ " " ++ errorNoteEff cfg
        else r2
      (r3,
        { s with usedFallbackOnce := true, errorNotified := true,
                 history := pushTurn s.history messageRaw r3 (historyTurnsEff cfg) })
    else
      let r1 := fallback2Eff cfg
      let r2 :=
        if attachMenuEff cfg && 0 < menuItemCountEff cfg then
          r1 ++ menuFromCommonQuestions cfg (menuItemCountEff cfg).toNat
        else r1
      (r2, { s with history := pushTurn s.history messageRaw r2 (historyTurnsEff cfg) })

/-- The tail of the pipeline after the semantic stage. -/
def laterStages (cfg : Cfg) (s : Session) (lower messageRaw : String)
    (p : ProviderResult) : String × Session :=
  match pricingStage cfg s lower messageRaw with
  | some r => r
  | none =>
    match closingStage cfg s lower messageRaw with
    | some r => r
    | none => generativeStage cfg s lower messageRaw p

/-- One turn of the `/chat` handler (lines 264-427): the short-circuiting
stage cascade over the trimmed, lower-cased message. -/
def chatTurn (cfg : Cfg) (s : Session) (messageRaw : String) (p : ProviderResult) :
    String × Session :=
  let lower := jsLower messageRaw
  match recallStage cfg s lower messageRaw with
  | some r => r
  | none =>
    match greeterStage cfg s lower messageRaw with
    | some r => r
    | none =>
      match semanticStage cfg s lower messageRaw with
      | some r => r
      | none => laterStages cfg s lower messageRaw p

/-- The decision stages (the spec's `PipelineDecision` stage tag). -/
inductive Stage where
  | recall
  | greeter
  | semantic
  | pricing
  | closing
  | generative
  | generativeError
deriving DecidableEq, Repr

/-- Which stage resolves a turn: the same guard cascade as `chatTurn`. -/
def resolvedStage (cfg : Cfg) (s : Session) (messageRaw : String)
    (p : ProviderResult) : Stage :=
  let lower := jsLower messageRaw
  if testRecall lower then Stage.recall
  else if enableGreeterEff cfg && (greetingTestEff cfg lower || lowInfoTestEff cfg lower) then
    Stage.greeter
  else if (match bestSemanticMatch cfg lower (minSemanticEff cfg) with
           | some itm => itm.a != ""
           | none => false) then Stage.semantic
  else if testPricing lower then Stage.pricing
  else if s.askedExtra && testClosing lower then Stage.closing
  else match p with
    | ProviderResult.success _ => Stage.generative
    | ProviderResult.failure => Stage.generativeError

/-- Run a list of turns (message and provider outcome per turn) from a
starting session. -/
def runTurns (cfg : Cfg) (s : Session) : List (String × ProviderResult) → Session
  | [] => s
  | t :: ts => runTurns cfg (chatTurn cfg s t.1 t.2).2 ts

/- ---------- score representation: correctness of the comparisons ---------- -/

/-- The score denominator is always positive: `⟨0,1⟩` for an empty side,
else a product of sizes of non-empty deduplicated lists. -/
theorem overlapScore_den_pos (a b : List String) : 0 < (overlapScore a b).den := by
  unfold overlapScore
  split
  · simp
  · rename_i h
    simp only [Bool.or_eq_true, List.isEmpty_iff, not_or] at h
    have ha : a.dedup ≠ [] := by simpa [List.dedup_eq_nil] using h.1
    have hb : b.dedup ≠ [] := by simpa [List.dedup_eq_nil] using h.2
    simpa using Nat.mul_pos (List.length_pos.2 ha) (List.length_pos.2 hb)

/-- `Score.gtB` implements the strict comparison of the real score values
`inter / √den`. -/
theorem Score.gtB_iff_real (s1 s2 : Score) (h1 : 0 < s1.den) (h2 : 0 < s2.den) :
    s1.gtB s2 = true ↔
      (s2.inter : ℝ) / Real.sqrt (s2.den : ℝ) < (s1.inter : ℝ) / Real.sqrt (s1.den : ℝ) := by
  have hs1 : (0 : ℝ) < Real.sqrt (s1.den : ℝ) := Real.sqrt_pos.2 (by exact_mod_cast h1)
  have hs2 : (0 : ℝ) < Real.sqrt (s2.den : ℝ) := Real.sqrt_pos.2 (by exact_mod_cast h2)
  have m1 : Real.sqrt (s1.den : ℝ) * Real.sqrt (s1.den : ℝ) = (s1.den : ℝ) :=
    Real.mul_self_sqrt (by positivity)
  have m2 : Real.sqrt (s2.den : ℝ) * Real.sqrt (s2.den : ℝ) = (s2.den : ℝ) :=
    Real.mul_self_sqrt (by positivity)
  have key : ((s2.inter : ℝ) * Real.sqrt (s1.den : ℝ) < (s1.inter : ℝ) * Real.sqrt (s2.den : ℝ))
      ↔ ((s2.inter : ℝ) * Real.sqrt (s1.den : ℝ)) * ((s2.inter : ℝ) * Real.sqrt (s1.den : ℝ))
        < ((s1.inter : ℝ) * Real.sqrt (s2.den : ℝ)) * ((s1.inter : ℝ) * Real.sqrt (s2.den : ℝ)) :=
    mul_self_lt_mul_self_iff (by positivity) (by positivity)
  have e1 : ((s2.inter : ℝ) * Real.sqrt (s1.den : ℝ)) * ((s2.inter : ℝ) * Real.sqrt (s1.den : ℝ))
      = (s2.inter : ℝ) ^ 2 * (s1.den : ℝ) := by
    rw [show ((s2.inter : ℝ) * Real.sqrt (s1.den : ℝ)) * ((s2.inter : ℝ) * Real.sqrt (s1.den : ℝ))
        = ((s2.inter : ℝ) * (s2.inter : ℝ))
          * (Real.sqrt (s1.den : ℝ) * Real.sqrt (s1.den : ℝ)) from by ring, m1]
    ring
  have e2 : ((s1.inter : ℝ) * Real.sqrt (s2.den : ℝ)) * ((s1.inter : ℝ) * Real.sqrt (s2.den : ℝ))
      = (s1.inter : ℝ) ^ 2 * (s2.den : ℝ) := by
    rw [show ((s1.inter : ℝ) * Real.sqrt (s2.den : ℝ)) * ((s1.inter : ℝ) * Real.sqrt (s2.den : ℝ))
        = ((s1.inter : ℝ) * (s1.inter : ℝ))
          * (Real.sqrt (s2.den : ℝ) * Real.sqrt (s2.den : ℝ)) from by ring, m2]
    ring
  rw [Score.gtB, decide_eq_true_iff, div_lt_div_iff hs2 hs1, key, e1, e2]
  constructor <;> intro h <;> exact_mod_cast h

/-- `Score.geThreshold` implements `value ≥ q` for the real score value. -/
theorem Score.geThreshold_iff_real (s : Score) (q : ℚ) (hd : 0 < s.den) :
    s.geThreshold q = true ↔ (q : ℝ) ≤ (s.inter : ℝ) / Real.sqrt (s.den : ℝ) := by
  have hs : (0 : ℝ) < Real.sqrt (s.den : ℝ) := Real.sqrt_pos.2 (by exact_mod_cast hd)
  have hnn : (0 : ℝ) ≤ (s.inter : ℝ) / Real.sqrt (s.den : ℝ) := by positivity
  have hdpos : (0 : ℝ) < ((q.den : ℤ) : ℝ) := by
    have := Nat.pos_of_ne_zero q.den_nz
    exact_mod_cast this
  rw [Score.geThreshold]
  split
  · rename_i hq
    have hq' : (q : ℝ) ≤ 0 := by exact_mod_cast Rat.num_nonpos.1 hq
    simp [le_trans hq' hnn]
  · rename_i hq
    have hq0 : (0 : ℚ) < q := Rat.num_pos.1 (lt_of_not_le hq)
    have hqR : (0 : ℝ) < (q : ℝ) := by exact_mod_cast hq0
    rw [decide_eq_true_iff, le_div_iff hs]
    have key : ((q : ℝ) * Real.sqrt (s.den : ℝ) ≤ (s.inter : ℝ))
        ↔ ((q : ℝ) * Real.sqrt (s.den : ℝ)) ^ 2 ≤ (s.inter : ℝ) ^ 2 :=
      (pow_le_pow_iff_left (by positivity) (by positivity) two_ne_zero).symm
    have e : ((q : ℝ) * Real.sqrt (s.den : ℝ)) ^ 2 = (q : ℝ) ^ 2 * (s.den : ℝ) := by
      rw [mul_pow, Real.sq_sqrt (by positivity)]
    rw [key, e]
    have hq_eq : (q : ℝ) = ((q.num : ℤ) : ℝ) / ((q.den : ℤ) : ℝ) := by
      rw [Rat.cast_def]
      norm_cast
    rw [hq_eq, div_pow, div_mul_eq_mul_div, div_le_iff (by positivity)]
    constructor <;> intro h <;> exact_mod_cast h

/- ---------- overlapScore as a function of the token sets ---------- -/

/-- Deduplication does not change the token set. -/
theorem dedup_toFinset (l : List String) : l.dedup.toFinset = l.toFinset := by
  ext x
  simp [List.mem_toFinset, List.mem_dedup]

/-- The deduplicated length is the set size. -/
theorem dedup_length_eq_card (l : List String) : l.dedup.length = l.toFinset.card := by
  rw [← dedup_toFinset, List.toFinset_card_of_nodup (List.nodup_dedup l)]

/-- The intersection count of `overlapScore` is the card of the set intersection. -/
theorem filter_contains_length_eq_card (a b : List String) :
    (a.dedup.filter (fun t => b.dedup.contains t)).length = (a.toFinset ∩ b.toFinset).card := by
  have hnd : (a.dedup.filter (fun t => b.dedup.contains t)).Nodup :=
    (List.nodup_dedup a).filter _
  rw [← List.toFinset_card_of_nodup hnd, List.toFinset_filter, dedup_toFinset]
  congr 1
  rw [← Finset.filter_mem_eq_inter]
  apply Finset.filter_congr
  intro x _
  simp [List.contains, List.elem_iff, List.mem_dedup, List.mem_toFinset]

/-- Canonical form of `overlapScore`: it depends only on the two token sets,
through `|A ∩ B|` and `|A| * |B|`. -/
theorem overlapScore_eq_finsets (a b : List String) :
    overlapScore a b =
      if a.toFinset = ∅ ∨ b.toFinset = ∅ then ⟨0, 1⟩
      else ⟨(a.toFinset ∩ b.toFinset).card, a.toFinset.card * b.toFinset.card⟩ := by
  have hiff : (a.isEmpty || b.isEmpty) = true ↔ (a.toFinset = ∅ ∨ b.toFinset = ∅) := by
    simp [List.isEmpty_iff, List.toFinset_eq_empty_iff]
  by_cases hc : a.toFinset = ∅ ∨ b.toFinset = ∅
  · rw [if_pos hc]
    unfold overlapScore
    rw [if_pos (hiff.2 hc)]
  · rw [if_neg hc]
    unfold overlapScore
    rw [if_neg (fun h => hc (hiff.1 h))]
    show (⟨(a.dedup.filter (fun t => b.dedup.contains t)).length,
           a.dedup.length * b.dedup.length⟩ : Score) = _
    rw [filter_contains_length_eq_card, dedup_length_eq_card, dedup_length_eq_card]

/-- C10 — `overlapScore` is symmetric in its two arguments, and is determined
only by the sets of tokens, not their order or multiplicity. -/
theorem c10_overlap_score_symm :
    (∀ a b : List String, overlapScore a b = overlapScore b a) ∧
    (∀ a a' b b' : List String, a.toFinset = a'.toFinset → b.toFinset = b'.toFinset →
      overlapScore a b = overlapScore a' b') := by
  constructor
  · intro a b
    rw [overlapScore_eq_finsets a b, overlapScore_eq_finsets b a]
    by_cases hc : a.toFinset = ∅ ∨ b.toFinset = ∅
    · rw [if_pos hc, if_pos hc.symm]
    · rw [if_neg hc, if_neg (fun h => hc h.symm)]
      have hi : a.toFinset ∩ b.toFinset = b.toFinset ∩ a.toFinset := Finset.inter_comm _ _
      rw [hi, Nat.mul_comm]
  · intro a a' b b' ha hb
    rw [overlapScore_eq_finsets a b, overlapScore_eq_finsets a' b', ha, hb]

/-- Witness for C10: concrete lists with equal token sets but different
order and multiplicity get the same score. -/
theorem c10_overlap_score_symm_witness :
    List.toFinset ["b", "a", "a"] = List.toFinset ["a", "b"] ∧
    List.toFinset ["a", "c"] = List.toFinset ["c", "a", "c"] ∧
    overlapScore ["b", "a", "a"] ["a", "c"] = overlapScore ["a", "b"] ["c", "a", "c"] :=
  ⟨by decide, by decide,
    c10_overlap_score_symm.2 ["b", "a", "a"] ["a", "b"] ["a", "c"] ["c", "a", "c"]
      (by decide) (by decide)⟩

/- ---------- the selection loop of bestSemanticMatch ---------- -/

/-- The running-best recursion of the `forEach` loop, started from a pair. -/
def selP (sc : Item → Score) (b : Item × Score) : List Item → Item × Score
  | [] => b
  | x :: xs => selP sc (if (sc x).gtB b.2 then (x, sc x) else b) xs

/-- Item-level version of the running best. -/
def selI (sc : Item → Score) (b : Item) : List Item → Item
  | [] => b
  | x :: xs => selI sc (if (sc x).gtB (sc b) then x else b) xs

/-- Rational-key version of the running best. -/
def selK (k : Item → ℚ) (b : Item) : List Item → Item
  | [] => b
  | x :: xs => selK k (if k b < k x then x else b) xs

theorem bestLoop_some (sc : Item → Score) (l : List Item) :
    ∀ b : Item × Score, bestLoop sc (some b) l = some (selP sc b l) := by
  induction l with
  | nil => intro b; rfl
  | cons x xs ih =>
    intro b
    rw [bestLoop, selP]
    by_cases h : (sc x).gtB b.2 <;> simp only [h, if_true, if_false, ite_true, ite_false] <;>
      exact ih _

theorem bestLoop_none_cons (sc : Item → Score) (x : Item) (xs : List Item) :
    bestLoop sc none (x :: xs) = some (selP sc (x, sc x) xs) := by
  rw [bestLoop]
  exact bestLoop_some sc xs _

theorem selP_eq_selI (sc : Item → Score) (l : List Item) :
    ∀ b : Item, selP sc (b, sc b) l = (selI sc b l, sc (selI sc b l)) := by
  induction l with
  | nil => intro b; rfl
  | cons x xs ih =>
    intro b
    rw [selP, selI]
    by_cases h : (sc x).gtB (sc b) <;> simp only [h, if_true, if_false, ite_true, ite_false] <;>
      exact ih _

/-- With positive denominators everywhere, the score comparison of the loop
is the comparison of the rational keys `inter²/den`. -/
theorem gtB_iff_key (s1 s2 : Score) (h1 : 0 < s1.den) (h2 : 0 < s2.den) :
    s1.gtB s2 = true ↔ s2.key < s1.key := by
  rw [Score.gtB, decide_eq_true_iff, Score.key, Score.key,
    div_lt_div_iff (by exact_mod_cast h2) (by exact_mod_cast h1)]
  constructor <;> intro h <;> exact_mod_cast h

theorem selI_eq_selK (sc : Item → Score) (hpos : ∀ i, 0 < (sc i).den) (l : List Item) :
    ∀ b : Item, selI sc b l = selK (fun i => (sc i).key) b l := by
  induction l with
  | nil => intro b; rfl
  | cons x xs ih =>
    intro b
    rw [selI, selK]
    by_cases h : (sc b).key < (sc x).key
    · rw [if_pos ((gtB_iff_key (sc x) (sc b) (hpos x) (hpos b)).2 h), if_pos h]
      exact ih _
    · rw [if_neg (fun hb => h ((gtB_iff_key (sc x) (sc b) (hpos x) (hpos b)).1 hb)), if_neg h]
      exact ih _

theorem find?_congr_mem {α : Type} (p q : α → Bool) :
    ∀ l : List α, (∀ x ∈ l, p x = q x) → l.find? p = l.find? q := by
  intro l
  induction l with
  | nil => intro _; rfl
  | cons x xs ih =>
    intro h
    have hx := h x (List.mem_cons_self x xs)
    cases hq : q x with
    | true => rw [List.find?_cons_of_pos _ (hx.trans hq), List.find?_cons_of_pos _ hq]
    | false =>
      rw [List.find?_cons_of_neg _ (by simp [hx, hq]), List.find?_cons_of_neg _ (by simp [hq])]
      exact ih (fun y hy => h y (List.mem_cons_of_mem _ hy))

theorem all_le_key_iff (k : Item → ℚ) (l : List Item) (z : Item) :
    (l.all (fun y => decide (k y ≤ k z)) = true) ↔ ∀ y ∈ l, k y ≤ k z := by
  simp [List.all_eq_true]

theorem bool_of_iff {a b : Bool} (h : (a = true) ↔ (b = true)) : a = b := by
  cases a <;> cases b <;> simp_all

/-- The running best is the first list element (including the seed) whose key
no element exceeds: first in list order wins ties. -/
theorem find?_max_eq_selK (k : Item → ℚ) :
    ∀ (l : List Item) (b : Item),
      (b :: l).find? (fun x => (b :: l).all (fun y => decide (k y ≤ k x))) = some (selK k b l) := by
  intro l
  induction l with
  | nil =>
    intro b
    rw [selK, List.find?_cons_of_pos]
    simp
  | cons x xs ih =>
    intro b
    by_cases hbx : k b < k x
    · -- the seed is beaten by x: the seed fails the predicate, and the rest
      -- of the search coincides with the search seeded at x
      have hpredb : ((b :: x :: xs).all (fun y => decide (k y ≤ k b))) = false := by
        rw [← Bool.not_eq_true, all_le_key_iff]
        intro hall
        exact absurd (hall x (List.mem_cons_of_mem _ (List.mem_cons_self _ _))) hbx.not_le
      rw [selK, if_pos hbx, List.find?_cons_of_neg _ (by simp [hpredb]), ← ih x]
      apply find?_congr_mem
      intro z hz
      apply bool_of_iff
      rw [all_le_key_iff, all_le_key_iff]
      constructor
      · intro hall y hy
        exact hall y (List.mem_cons_of_mem _ hy)
      · intro hall y hy
        rcases List.mem_cons.1 hy with rfl | hy'
        · exact le_trans hbx.le (hall x (List.mem_cons_self _ _))
        · exact hall y hy'
    · -- the seed survives x
      have hxb : k x ≤ k b := not_lt.1 hbx
      rw [selK, if_neg hbx]
      by_cases hall : ((b :: xs).all (fun y => decide (k y ≤ k b))) = true
      · -- the seed is a maximum of the whole list: found immediately on both sides
        have hmax := (all_le_key_iff k (b :: xs) b).1 hall
        have hpredb : ((b :: x :: xs).all (fun y => decide (k y ≤ k b))) = true := by
          rw [all_le_key_iff]
          intro y hy
          rcases List.mem_cons.1 hy with rfl | hy'
          · exact le_refl _
          · rcases List.mem_cons.1 hy' with rfl | hy''
            · exact hxb
            · exact hmax y (List.mem_cons_of_mem _ hy'')
        have hsel : selK k b xs = b := by
          have hthis := ih b
          rw [@List.find?_cons_of_pos _ (fun z => (b :: xs).all (fun y => decide (k y ≤ k z)))
            b xs hall] at hthis
          exact (Option.some.inj hthis).symm
        rw [@List.find?_cons_of_pos _
          (fun z => (b :: x :: xs).all (fun y => decide (k y ≤ k z))) b (x :: xs) hpredb, hsel]
      · -- some y ∈ xs strictly beats the seed (and hence also x)
        have hex : ∃ y ∈ b :: xs, ¬ k y ≤ k b := by
          by_contra hno
          push_neg at hno
          exact hall ((all_le_key_iff k (b :: xs) b).2 hno)
        obtain ⟨y, hy, hky⟩ := hex
        have hby : k b < k y := not_le.1 hky
        have hyxs : y ∈ xs := by
          rcases List.mem_cons.1 hy with rfl | hy'
          · exact absurd (le_refl (k y)) hky
          · exact hy'
        have hpredb : ((b :: x :: xs).all (fun y => decide (k y ≤ k b))) = false := by
          rw [← Bool.not_eq_true, all_le_key_iff]
          intro h
          exact hky (h y (List.mem_cons_of_mem _ (List.mem_cons_of_mem _ hyxs)))
        have hpredx : ((b :: x :: xs).all (fun y => decide (k y ≤ k x))) = false := by
          rw [← Bool.not_eq_true, all_le_key_iff]
          intro h
          exact absurd (h y (List.mem_cons_of_mem _ (List.mem_cons_of_mem _ hyxs)))
            (not_le.2 (lt_of_le_of_lt hxb hby))
        have hpredbB : ((b :: xs).all (fun y => decide (k y ≤ k b))) = false := by
          rw [← Bool.not_eq_true, all_le_key_iff]
          intro h
          exact hky (h y (List.mem_cons_of_mem _ hyxs))
        rw [List.find?_cons_of_neg _ (by simp [hpredb]),
          List.find?_cons_of_neg _ (by simp [hpredx])]
        have hih := ih b
        rw [List.find?_cons_of_neg _ (by simp [hpredbB])] at hih
        rw [← hih]
        apply find?_congr_mem
        intro z hz
        apply bool_of_iff
        rw [all_le_key_iff, all_le_key_iff]
        constructor
        · intro h2 w hw
          rcases List.mem_cons.1 hw with rfl | hw'
          · exact h2 w (List.mem_cons_self _ _)
          · exact h2 w (List.mem_cons_of_mem _ (List.mem_cons_of_mem _ hw'))
        · intro h2 w hw
          rcases List.mem_cons.1 hw with rfl | hw'
          · exact h2 w (List.mem_cons_self _ _)
          · rcases List.mem_cons.1 hw' with rfl | hw''
            · exact le_trans hxb (le_trans hby.le (h2 y (List.mem_cons_of_mem _ hyxs)))
            · exact h2 w (List.mem_cons_of_mem _ hw'')

theorem all_congr_mem {α : Type} (f g : α → Bool) (l : List α) (h : ∀ y ∈ l, f y = g y) :
    l.all f = l.all g := by
  apply bool_of_iff
  rw [List.all_eq_true, List.all_eq_true]
  constructor <;> intro hh y hy
  · rw [← h y hy]; exact hh y hy
  · rw [h y hy]; exact hh y hy

theorem bestMatch_core (sc : Item → Score) (hpos : ∀ i, 0 < (sc i).den)
    (x : Item) (xs : List Item) (minScore : ℚ) :
    (match bestLoop sc none (x :: xs) with
     | some best => if best.2.geThreshold minScore then some best.1 else none
     | none => none) =
    (match (x :: xs).find? (fun itm => (x :: xs).all (fun other => !(sc other).gtB (sc itm))) with
     | some itm => if (sc itm).geThreshold minScore then some itm else none
     | none => none) := by
  rw [bestLoop_none_cons, selP_eq_selI, selI_eq_selK sc hpos]
  rw [find?_congr_mem _
    (fun itm => (x :: xs).all (fun y => decide ((sc y).key ≤ (sc itm).key))) (x :: xs) ?_]
  · rw [@find?_max_eq_selK (fun i => (sc i).key) xs x]
  · intro z _
    apply all_congr_mem
    intro y _
    have hiff := gtB_iff_key (sc y) (sc z) (hpos y) (hpos z)
    apply bool_of_iff
    rw [Bool.not_eq_true', decide_eq_true_iff]
    constructor
    · intro hf
      rcases lt_or_le (sc z).key (sc y).key with hlt | hle
      · rw [hiff.2 hlt] at hf
        exact absurd hf (by simp)
      · exact hle
    · intro hle
      cases hgt : (sc y).gtB (sc z)
      · rfl
      · exact absurd (hiff.1 hgt) (not_lt.2 hle)

/-- The Semantic Matcher as the spec describes it: among the candidate list
(FAQ entries followed by knowledge snippets), the first candidate whose score
against the user message no other candidate strictly exceeds — first in list
order wins ties — surfaced exactly when its score reaches the threshold, and
`none` otherwise. -/
def semanticSelectionSpec (cfg : Cfg) (userMsg : String) (minScore : ℚ) : Option Item :=
  let items := semItems cfg
  let uTok := tokenize userMsg
  let sc := fun itm => overlapScore uTok (tokenize (itemText itm))
  match items.find? (fun itm => items.all (fun other => !(sc other).gtB (sc itm))) with
  | some itm => if (sc itm).geThreshold minScore then some itm else none
  | none => none

/-- C4 — `bestSemanticMatch` scores the FAQ-then-knowledge candidate list
against the message's token set and returns the single highest-scoring
candidate exactly when its score reaches the threshold (else none); among
equal top scores the first candidate in list order is selected. -/
theorem c4_best_semantic_match_spec (cfg : Cfg) (userMsg : String) (minScore : ℚ) :
    bestSemanticMatch cfg userMsg minScore = semanticSelectionSpec cfg userMsg minScore := by
  unfold bestSemanticMatch semanticSelectionSpec
  cases hitems : semItems cfg with
  | nil => rfl
  | cons x xs =>
    show (if (x :: xs).isEmpty = true then none
          else
            match bestLoop (fun itm => overlapScore (tokenize userMsg) (tokenize (itemText itm)))
                none (x :: xs) with
            | some best => if best.2.geThreshold minScore then some best.1 else none
            | none => none) = _
    rw [if_neg (by simp)]
    exact bestMatch_core _ (fun i => overlapScore_den_pos _ _) x xs minScore

/- ---------- basic facts about the pipeline stages ---------- -/

/-- `chatTurn` with the lower-cased message spelled out. -/
theorem chatTurn_def (cfg : Cfg) (s : Session) (m : String) (p : ProviderResult) :
    chatTurn cfg s m p =
      (match recallStage cfg s (jsLower m) m with
       | some r => r
       | none =>
         match greeterStage cfg s (jsLower m) m with
         | some r => r
         | none =>
           match semanticStage cfg s (jsLower m) m with
           | some r => r
           | none => laterStages cfg s (jsLower m) m p) := rfl

/-- `resolvedStage` with the lower-cased message spelled out. -/
theorem resolvedStage_def (cfg : Cfg) (s : Session) (m : String) (p : ProviderResult) :
    resolvedStage cfg s m p =
      (if testRecall (jsLower m) then Stage.recall
       else if enableGreeterEff cfg
           && (greetingTestEff cfg (jsLower m) || lowInfoTestEff cfg (jsLower m)) then
         Stage.greeter
       else if (match bestSemanticMatch cfg (jsLower m) (minSemanticEff cfg) with
                | some itm => itm.a != ""
                | none => false) then Stage.semantic
       else if testPricing (jsLower m) then Stage.pricing
       else if s.askedExtra && testClosing (jsLower m) then Stage.closing
       else match p with
         | ProviderResult.success _ => Stage.generative
         | ProviderResult.failure => Stage.generativeError) := rfl

theorem recallStage_some (cfg : Cfg) (s : Session) (lower mRaw : String)
    (rs : String × Session) (h : recallStage cfg s lower mRaw = some rs) :
    rs.2 = { s with history := pushTurn s.history mRaw rs.1 (historyTurnsEff cfg) } := by
  unfold recallStage at h
  split at h
  · injection h with h2
    subst h2
    rfl
  · exact Option.noConfusion h

theorem recallStage_isSome_cond (cfg : Cfg) (s : Session) (lower mRaw : String)
    (rs : String × Session) (h : recallStage cfg s lower mRaw = some rs) :
    testRecall lower = true := by
  unfold recallStage at h
  split at h
  · assumption
  · exact Option.noConfusion h

theorem recallStage_eq_none_iff (cfg : Cfg) (s : Session) (lower mRaw : String) :
    recallStage cfg s lower mRaw = none ↔ testRecall lower = false := by
  unfold recallStage
  split <;> rename_i h <;> simp [h]

theorem greeterStage_some (cfg : Cfg) (s : Session) (lower mRaw : String)
    (rs : String × Session) (h : greeterStage cfg s lower mRaw = some rs) :
    rs.2 = { s with askedExtra := true,
                    history := pushTurn s.history mRaw rs.1 (historyTurnsEff cfg) } := by
  unfold greeterStage at h
  split at h
  · injection h with h2
    subst h2
    rfl
  · exact Option.noConfusion h

theorem greeterStage_isSome_cond (cfg : Cfg) (s : Session) (lower mRaw : String)
    (rs : String × Session) (h : greeterStage cfg s lower mRaw = some rs) :
    (enableGreeterEff cfg && (greetingTestEff cfg lower || lowInfoTestEff cfg lower)) = true := by
  unfold greeterStage at h
  split at h
  · assumption
  · exact Option.noConfusion h

theorem greeterStage_eq_none_iff (cfg : Cfg) (s : Session) (lower mRaw : String) :
    greeterStage cfg s lower mRaw = none ↔
      (enableGreeterEff cfg && (greetingTestEff cfg lower || lowInfoTestEff cfg lower)) = false := by
  unfold greeterStage
  split <;> rename_i h <;> simp [h]

theorem semanticStage_some (cfg : Cfg) (s : Session) (lower mRaw : String)
    (rs : String × Session) (h : semanticStage cfg s lower mRaw = some rs) :
    rs.2 = { s with askedExtra := true, usedFallbackOnce := false,
                    history := pushTurn s.history mRaw rs.1 (historyTurnsEff cfg) } := by
  unfold semanticStage at h
  split at h
  · split at h
    · exact Option.noConfusion h
    · injection h with h2
      subst h2
      rfl
  · exact Option.noConfusion h

theorem semanticStage_isSome_cond (cfg : Cfg) (s : Session) (lower mRaw : String)
    (rs : String × Session) (h : semanticStage cfg s lower mRaw = some rs) :
    (match bestSemanticMatch cfg lower (minSemanticEff cfg) with
     | some itm => itm.a != ""
     | none => false) = true := by
  unfold semanticStage at h
  split at h
  · rename_i itm heq
    split at h
    · exact Option.noConfusion h
    · rename_i hne
      simp [hne]
  · exact Option.noConfusion h

theorem semanticStage_eq_none_iff (cfg : Cfg) (s : Session) (lower mRaw : String) :
    semanticStage cfg s lower mRaw = none ↔
      (match bestSemanticMatch cfg lower (minSemanticEff cfg) with
       | some itm => itm.a != ""
       | none => false) = false := by
  unfold semanticStage
  split
  · rename_i itm heq
    split <;> rename_i h <;> simp [h]
  · simp

theorem pricingStage_some (cfg : Cfg) (s : Session) (lower mRaw : String)
    (rs : String × Session) (h : pricingStage cfg s lower mRaw = some rs) :
    rs.1 = getPricingLine cfg ∧
    rs.2 = { s with history := pushTurn s.history mRaw rs.1 (historyTurnsEff cfg) } := by
  unfold pricingStage at h
  split at h
  · injection h with h2
    subst h2
    exact ⟨rfl, rfl⟩
  · exact Option.noConfusion h

theorem pricingStage_isSome_cond (cfg : Cfg) (s : Session) (lower mRaw : String)
    (rs : String × Session) (h : pricingStage cfg s lower mRaw = some rs) :
    testPricing lower = true := by
  unfold pricingStage at h
  split at h
  · assumption
  · exact Option.noConfusion h

theorem pricingStage_eq_none_iff (cfg : Cfg) (s : Session) (lower mRaw : String) :
    pricingStage cfg s lower mRaw = none ↔ testPricing lower = false := by
  unfold pricingStage
  split <;> rename_i h <;> simp [h]

theorem closingStage_some (cfg : Cfg) (s : Session) (lower mRaw : String)
    (rs : String × Session) (h : closingStage cfg s lower mRaw = some rs) :
    rs.1 = cfg.closingMessage.getD "" ∧
    rs.2 = { s with history := pushTurn s.history mRaw rs.1 (historyTurnsEff cfg) } := by
  unfold closingStage at h
  split at h
  · injection h with h2
    subst h2
    exact ⟨rfl, rfl⟩
  · exact Option.noConfusion h

theorem closingStage_isSome_cond (cfg : Cfg) (s : Session) (lower mRaw : String)
    (rs : String × Session) (h : closingStage cfg s lower mRaw = some rs) :
    (s.askedExtra && testClosing lower) = true := by
  unfold closingStage at h
  split at h
  · assumption
  · exact Option.noConfusion h

theorem closingStage_eq_none_iff (cfg : Cfg) (s : Session) (lower mRaw : String) :
    closingStage cfg s lower mRaw = none ↔ (s.askedExtra && testClosing lower) = false := by
  unfold closingStage
  split <;> rename_i h <;> simp [h]

theorem generativeStage_history (cfg : Cfg) (s : Session) (lower mRaw : String)
    (p : ProviderResult) :
    (generativeStage cfg s lower mRaw p).2.history =
      pushTurn s.history mRaw (generativeStage cfg s lower mRaw p).1 (historyTurnsEff cfg) := by
  unfold generativeStage
  cases p with
  | success content => rfl
  | failure =>
    by_cases h : (enableNRFEff cfg && !s.usedFallbackOnce) = true
    · rw [if_pos h]
    · rw [if_neg h]

theorem generativeStage_askedExtra (cfg : Cfg) (s : Session) (lower mRaw : String)
    (p : ProviderResult) :
    (generativeStage cfg s lower mRaw p).2.askedExtra =
      (match p with
       | ProviderResult.success _ => true
       | ProviderResult.failure => s.askedExtra) := by
  cases p with
  | success content => rfl
  | failure =>
    unfold generativeStage
    by_cases h : (enableNRFEff cfg && !s.usedFallbackOnce) = true
    · rw [if_pos h]
    · rw [if_neg h]

/-- Every reply-producing branch stores `pushTurn`'s update: the user message
and the reply are appended and the history is re-sliced. -/
theorem chatTurn_history_shape (cfg : Cfg) (s : Session) (m : String) (p : ProviderResult) :
    (chatTurn cfg s m p).2.history =
      pushTurn s.history m (chatTurn cfg s m p).1 (historyTurnsEff cfg) := by
  rw [chatTurn_def]
  cases hr : recallStage cfg s (jsLower m) m with
  | some rs => rw [recallStage_some cfg s (jsLower m) m rs hr]
  | none =>
    cases hg : greeterStage cfg s (jsLower m) m with
    | some rs => rw [greeterStage_some cfg s (jsLower m) m rs hg]
    | none =>
      cases hsem : semanticStage cfg s (jsLower m) m with
      | some rs => rw [semanticStage_some cfg s (jsLower m) m rs hsem]
      | none =>
        unfold laterStages
        cases hp : pricingStage cfg s (jsLower m) m with
        | some rs => rw [(pricingStage_some cfg s (jsLower m) m rs hp).2]
        | none =>
          cases hc : closingStage cfg s (jsLower m) m with
          | some rs => rw [(closingStage_some cfg s (jsLower m) m rs hc).2]
          | none => exact generativeStage_history cfg s (jsLower m) m p

theorem pushTurn_length_le (hist : List Msg) (u r : String) (h : ℕ) (hh : 1 ≤ h) :
    (pushTurn hist u r h).length ≤ 2 * h := by
  unfold pushTurn sliceLast
  rw [if_neg (by omega)]
  rw [List.length_drop]
  omega

theorem pushTurn_suffix (hist : List Msg) (u r : String) (h : ℕ) :
    pushTurn hist u r h <:+ hist ++ [⟨Role.user, u⟩, ⟨Role.assistant, r⟩] := by
  unfold pushTurn sliceLast
  split
  · exact List.suffix_refl _
  · exact List.drop_suffix _ _

/-- C3 (amended) — provided the configured `historyTurns` is at least 1, the
stored history length after any turn is at most `2 × historyTurns`, the new
history is a suffix of the old history extended by the turn (so truncation
only ever drops the oldest entries), and — applied to the fold over a whole
session — the bound holds after every turn of every turn sequence. -/
theorem c3_history_cap_fifo (cfg : Cfg) (h1 : 1 ≤ historyTurnsEff cfg) :
    (∀ (s : Session) (m : String) (p : ProviderResult),
        (chatTurn cfg s m p).2.history.length ≤ 2 * historyTurnsEff cfg ∧
        (chatTurn cfg s m p).2.history <:+
          s.history ++ [⟨Role.user, m⟩, ⟨Role.assistant, (chatTurn cfg s m p).1⟩]) ∧
    (∀ ts : List (String × ProviderResult),
        (runTurns cfg initSession ts).history.length ≤ 2 * historyTurnsEff cfg) := by
  have hstep : ∀ (s : Session) (m : String) (p : ProviderResult),
      (chatTurn cfg s m p).2.history.length ≤ 2 * historyTurnsEff cfg := by
    intro s m p
    rw [chatTurn_history_shape]
    exact pushTurn_length_le _ _ _ _ h1
  refine ⟨fun s m p => ⟨hstep s m p, ?_⟩, ?_⟩
  · rw [chatTurn_history_shape]
    exact pushTurn_suffix _ _ _ _
  · have hrun : ∀ (ts : List (String × ProviderResult)) (s : Session),
        s.history.length ≤ 2 * historyTurnsEff cfg →
        (runTurns cfg s ts).history.length ≤ 2 * historyTurnsEff cfg := by
      intro ts
      induction ts with
      | nil => intro s hs; exact hs
      | cons t ts ih =>
        intro s _
        exact ih _ (hstep s t.1 t.2)
    intro ts
    exact hrun ts initSession (by simp [initSession])

/-- Tenant configured with `memory.historyTurns = 0`. -/
def cfgC3x : Cfg := { behavior := some { historyTurns := some 0 } }

/-- Counterexample to C3 as stated: with a configured `historyTurns` of 0 the
cap `2 × historyTurns = 0` is not re-established — `slice(-0)` keeps the whole
array, so one turn already stores 2 entries. -/
theorem c3_zero_history_cap_counterexample :
    historyTurnsEff cfgC3x = 0 ∧
    (chatTurn cfgC3x initSession "hello" ProviderResult.failure).2.history.length = 2 ∧
    ¬((chatTurn cfgC3x initSession "hello" ProviderResult.failure).2.history.length ≤
        2 * historyTurnsEff cfgC3x) :=
  ⟨by decide, by decide, by decide⟩

/-- Witness for C3 (amended), at the default configuration (`historyTurns = 8`). -/
theorem c3_history_cap_fifo_witness :
    (chatTurn ({} : Cfg) initSession "hello" ProviderResult.failure).2.history.length ≤
      2 * historyTurnsEff ({} : Cfg) ∧
    (chatTurn ({} : Cfg) initSession "hello" ProviderResult.failure).2.history <:+
      initSession.history ++ [⟨Role.user, "hello"⟩,
        ⟨Role.assistant, (chatTurn ({} : Cfg) initSession "hello" ProviderResult.failure).1⟩] :=
  (c3_history_cap_fifo ({} : Cfg) (by decide)).1 initSession "hello" ProviderResult.failure

/-- How each resolving stage updates the `askedExtra` flag. -/
theorem chatTurn_askedExtra (cfg : Cfg) (s : Session) (m : String) (p : ProviderResult) :
    (chatTurn cfg s m p).2.askedExtra =
      (match resolvedStage cfg s m p with
       | Stage.greeter => true
       | Stage.semantic => true
       | Stage.generative => true
       | _ => s.askedExtra) := by
  rw [chatTurn_def, resolvedStage_def]
  cases hr : recallStage cfg s (jsLower m) m with
  | some rs =>
    rw [if_pos (recallStage_isSome_cond _ _ _ _ _ hr), recallStage_some _ _ _ _ _ hr]
  | none =>
    have h0 := (recallStage_eq_none_iff cfg s (jsLower m) m).1 hr
    rw [if_neg (by simp [h0])]
    cases hg : greeterStage cfg s (jsLower m) m with
    | some rs =>
      rw [if_pos (greeterStage_isSome_cond _ _ _ _ _ hg), greeterStage_some _ _ _ _ _ hg]
    | none =>
      have h1 := (greeterStage_eq_none_iff cfg s (jsLower m) m).1 hg
      rw [if_neg (by simp [h1])]
      cases hsem : semanticStage cfg s (jsLower m) m with
      | some rs =>
        rw [if_pos (semanticStage_isSome_cond _ _ _ _ _ hsem),
          semanticStage_some _ _ _ _ _ hsem]
      | none =>
        have h2 := (semanticStage_eq_none_iff cfg s (jsLower m) m).1 hsem
        rw [if_neg (by simp [h2])]
        unfold laterStages
        cases hp : pricingStage cfg s (jsLower m) m with
        | some rs =>
          rw [if_pos (pricingStage_isSome_cond _ _ _ _ _ hp),
            (pricingStage_some _ _ _ _ _ hp).2]
        | none =>
          have h3 := (pricingStage_eq_none_iff cfg s (jsLower m) m).1 hp
          rw [if_neg (by simp [h3])]
          cases hc : closingStage cfg s (jsLower m) m with
          | some rs =>
            rw [if_pos (closingStage_isSome_cond _ _ _ _ _ hc),
              (closingStage_some _ _ _ _ _ hc).2]
          | none =>
            have h4 := (closingStage_eq_none_iff cfg s (jsLower m) m).1 hc
            rw [if_neg (by simp [h4]), generativeStage_askedExtra]
            cases p <;> rfl

/-- The closing stage only fires when the flag is already set. -/
theorem resolvedStage_closing_asked (cfg : Cfg) (s : Session) (m : String)
    (p : ProviderResult) (h : resolvedStage cfg s m p = Stage.closing) :
    s.askedExtra = true := by
  rw [resolvedStage_def] at h
  by_cases h0 : testRecall (jsLower m) = true
  · rw [if_pos h0] at h
    exact absurd h (by decide)
  · rw [if_neg h0] at h
    by_cases h1 : (enableGreeterEff cfg
        && (greetingTestEff cfg (jsLower m) || lowInfoTestEff cfg (jsLower m))) = true
    · rw [if_pos h1] at h
      exact absurd h (by decide)
    · rw [if_neg h1] at h
      by_cases h2 : (match bestSemanticMatch cfg (jsLower m) (minSemanticEff cfg) with
                     | some itm => itm.a != ""
                     | none => false) = true
      · rw [if_pos h2] at h
        exact absurd h (by decide)
      · rw [if_neg h2] at h
        by_cases h3 : testPricing (jsLower m) = true
        · rw [if_pos h3] at h
          exact absurd h (by decide)
        · rw [if_neg h3] at h
          by_cases h4 : (s.askedExtra && testClosing (jsLower m)) = true
          · simp only [Bool.and_eq_true] at h4
            exact h4.1
          · rw [if_neg h4] at h
            cases p <;> simp at h

/-- C9 (amended) — the `askedExtra` flag is set by the greeter/low-info,
semantic, and generative-success stages; the recall, pricing-guardrail and
provider-failure stages leave it unchanged; the closing stage preserves it
and only fires when it is already set. -/
theorem c9_asked_extra_flag (cfg : Cfg) (s : Session) (m : String) (p : ProviderResult) :
    ((chatTurn cfg s m p).2.askedExtra =
      (match resolvedStage cfg s m p with
       | Stage.greeter => true
       | Stage.semantic => true
       | Stage.generative => true
       | _ => s.askedExtra)) ∧
    (resolvedStage cfg s m p = Stage.closing → s.askedExtra = true) :=
  ⟨chatTurn_askedExtra cfg s m p, resolvedStage_closing_asked cfg s m p⟩

/-- Counterexample to C9 as stated: a pricing-guardrail reply leaves the flag
clear, while a greeting reply sets it. -/
theorem c9_asked_extra_counterexample :
    resolvedStage ({} : Cfg) initSession "cost" ProviderResult.failure = Stage.pricing ∧
    (chatTurn ({} : Cfg) initSession "cost" ProviderResult.failure).2.askedExtra = false ∧
    resolvedStage ({} : Cfg) initSession "hi" ProviderResult.failure = Stage.greeter ∧
    (chatTurn ({} : Cfg) initSession "hi" ProviderResult.failure).2.askedExtra = true :=
  ⟨by decide, by decide, by decide, by decide⟩

/-- Witness for C9 (amended): a concrete closing turn, with the flag already
set beforehand (obtained through the theorem). -/
theorem c9_asked_extra_flag_witness :
    resolvedStage ({} : Cfg) { initSession with askedExtra := true } "nothing else thanks"
      ProviderResult.failure = Stage.closing ∧
    ({ initSession with askedExtra := true } : Session).askedExtra = true := by
  constructor
  · decide
  · exact (c9_asked_extra_flag ({} : Cfg) { initSession with askedExtra := true }
      "nothing else thanks" ProviderResult.failure).2 (by decide)

/-- C1 (amended) — when a pricing-intent message is not resolved earlier
(no recall, no greeter/low-info hit, no semantic hit), the turn is resolved
by the pricing guardrail and the reply is exactly the authoritative pricing
line; in particular such a turn never reaches the closing or generative
stages, so the provider-override path is never what resolves it. -/
theorem c1_guardrail_pricing_verbatim (cfg : Cfg) (s : Session) (m : String)
    (p : ProviderResult)
    (hp : testPricing (jsLower m) = true)
    (hr : recallStage cfg s (jsLower m) m = none)
    (hg : greeterStage cfg s (jsLower m) m = none)
    (hs : semanticStage cfg s (jsLower m) m = none) :
    (chatTurn cfg s m p).1 = getPricingLine cfg ∧
    resolvedStage cfg s m p = Stage.pricing := by
  have hps : pricingStage cfg s (jsLower m) m =
      some (getPricingLine cfg,
        { s with history :=
            pushTurn s.history m (getPricingLine cfg) (historyTurnsEff cfg) }) := by
    unfold pricingStage
    rw [if_pos hp]
  constructor
  · rw [chatTurn_def]
    simp only [hr, hg, hs]
    unfold laterStages
    rw [hps]
  · rw [resolvedStage_def]
    rw [if_neg (by simp [(recallStage_eq_none_iff cfg s (jsLower m) m).1 hr]),
      if_neg (by simp [(greeterStage_eq_none_iff cfg s (jsLower m) m).1 hg]),
      if_neg (by simp [(semanticStage_eq_none_iff cfg s (jsLower m) m).1 hs]),
      if_pos hp]

/-- Witness for C1 (amended): the spec's own scenario, on an empty tenant
configuration. -/
theorem c1_guardrail_pricing_verbatim_witness :
    testPricing (jsLower "how much does it cost") = true ∧
    (chatTurn ({} : Cfg) initSession "how much does it cost" ProviderResult.failure).1 =
      getPricingLine ({} : Cfg) ∧
    resolvedStage ({} : Cfg) initSession "how much does it cost" ProviderResult.failure =
      Stage.pricing := by
  have h := c1_guardrail_pricing_verbatim ({} : Cfg) initSession "how much does it cost"
    ProviderResult.failure (by decide) (by decide) (by decide) (by decide)
  exact ⟨by decide, h.1, h.2⟩

/-- Tenant with one non-pricing FAQ and no pricing configuration. -/
def cfgC1x : Cfg := { faqs := [{ q := "widget", a := "Widgets are blue" }] }

/-- Counterexample to C1 as stated: `"price widget"` matches the
pricing-intent pattern, yet the turn is resolved by the semantic-match stage
with the widget FAQ's answer, which is not the authoritative pricing line. -/
theorem c1_semantic_overrides_pricing_counterexample :
    testPricing (jsLower "price widget") = true ∧
    resolvedStage cfgC1x initSession "price widget" ProviderResult.failure = Stage.semantic ∧
    (chatTurn cfgC1x initSession "price widget" ProviderResult.failure).1 = "Widgets are blue" ∧
    getPricingLine cfgC1x = defaultPricingLine ∧
    ("Widgets are blue" : String) ≠ defaultPricingLine :=
  ⟨by decide, by decide, by decide, by decide, by decide⟩

/-- C2 (amended) — with the non-repeating fallback enabled and the
`usedFallbackOnce` flag clear, a provider-failure turn that reaches the
generative stage replies with the first fallback text (plus menu and
one-time error note, as configured) and sets the flag, and a second
consecutive such failure replies with the second fallback text (plus menu):
the two replies are built from the two distinct configured texts. -/
theorem c2_nonrepeating_escalation (cfg : Cfg) (s : Session) (m1 m2 : String)
    (hnr : enableNRFEff cfg = true) (hu : s.usedFallbackOnce = false)
    (h1r : recallStage cfg s (jsLower m1) m1 = none)
    (h1g : greeterStage cfg s (jsLower m1) m1 = none)
    (h1s : semanticStage cfg s (jsLower m1) m1 = none)
    (h1p : pricingStage cfg s (jsLower m1) m1 = none)
    (h1c : closingStage cfg s (jsLower m1) m1 = none)
    (h2r : recallStage cfg (chatTurn cfg s m1 ProviderResult.failure).2 (jsLower m2) m2 = none)
    (h2g : greeterStage cfg (chatTurn cfg s m1 ProviderResult.failure).2 (jsLower m2) m2 = none)
    (h2s : semanticStage cfg (chatTurn cfg s m1 ProviderResult.failure).2 (jsLower m2) m2 = none)
    (h2p : pricingStage cfg (chatTurn cfg s m1 ProviderResult.failure).2 (jsLower m2) m2 = none)
    (h2c : closingStage cfg (chatTurn cfg s m1 ProviderResult.failure).2 (jsLower m2) m2 = none) :
    (chatTurn cfg s m1 ProviderResult.failure).1 =
      (let r1 := fallback1Eff cfg
       let r2 := if attachMenuEff cfg && 0 < menuItemCountEff cfg then
           r1 ++ menuFromCommonQuestions cfg (menuItemCountEff cfg).toNat
         else r1
       if !s.errorNotified && errorNoteEff cfg != "" then r2 ++ " " ++ errorNoteEff cfg
       else r2) ∧
    (chatTurn cfg s m1 ProviderResult.failure).2.usedFallbackOnce = true ∧
    (chatTurn cfg (chatTurn cfg s m1 ProviderResult.failure).2 m2 ProviderResult.failure).1 =
      (let r1 := fallback2Eff cfg
       if attachMenuEff cfg && 0 < menuItemCountEff cfg then
         r1 ++ menuFromCommonQuestions cfg (menuItemCountEff cfg).toNat
       else r1) := by
  have hu1 : (chatTurn cfg s m1 ProviderResult.failure).2.usedFallbackOnce = true := by
    rw [chatTurn_def]
    simp only [h1r, h1g, h1s]
    unfold laterStages
    simp only [h1p, h1c]
    unfold generativeStage
    rw [if_pos (by simp [hnr, hu])]
  have hr1 : (chatTurn cfg s m1 ProviderResult.failure).1 =
      (let r1 := fallback1Eff cfg
       let r2 := if attachMenuEff cfg && 0 < menuItemCountEff cfg then
           r1 ++ menuFromCommonQuestions cfg (menuItemCountEff cfg).toNat
         else r1
       if !s.errorNotified && errorNoteEff cfg != "" then r2 ++ " " ++ errorNoteEff cfg
       else r2) := by
    rw [chatTurn_def]
    simp only [h1r, h1g, h1s]
    unfold laterStages
    simp only [h1p, h1c]
    unfold generativeStage
    rw [if_pos (by simp [hnr, hu])]
  have hr2 : (chatTurn cfg (chatTurn cfg s m1 ProviderResult.failure).2 m2
      ProviderResult.failure).1 =
      (let r1 := fallback2Eff cfg
       if attachMenuEff cfg && 0 < menuItemCountEff cfg then
         r1 ++ menuFromCommonQuestions cfg (menuItemCountEff cfg).toNat
       else r1) := by
    rw [chatTurn_def]
    simp only [h2r, h2g, h2s]
    unfold laterStages
    simp only [h2p, h2c]
    unfold generativeStage
    rw [if_neg (by simp [hu1])]
  exact ⟨hr1, hu1, hr2⟩

/-- Tenant whose two fallback texts are configured identical (menu and error
note disabled). -/
def cfgC2x : Cfg :=
  { fallback := some { answer := some "X", secondAnswer := some "X",
                       attachMenuOnFallback := some false },
    behavior := some { errorNoteOnce := some "" } }

/-- Counterexample to C2 as stated: two consecutive provider failures in one
session can produce the identical first-fallback text twice, because the
second fallback text is not forced to differ from the first. -/
theorem c2_identical_fallback_counterexample :
    fallback1Eff cfgC2x = "X" ∧
    (chatTurn cfgC2x initSession "qqq" ProviderResult.failure).1 = "X" ∧
    (chatTurn cfgC2x (chatTurn cfgC2x initSession "qqq" ProviderResult.failure).2 "qqq"
        ProviderResult.failure).1 = "X" :=
  ⟨by decide, by decide, by decide⟩

/-- Tenant with distinct fallback texts (menu and error note disabled). -/
def cfgC2w : Cfg :=
  { fallback := some { answer := some "A", secondAnswer := some "B",
                       attachMenuOnFallback := some false },
    behavior := some { errorNoteOnce := some "" } }

/-- Witness for C2 (amended): two consecutive provider failures produce the
two distinct configured fallback texts. -/
theorem c2_nonrepeating_escalation_witness :
    (chatTurn cfgC2w initSession "qqq" ProviderResult.failure).1 = "A" ∧
    (chatTurn cfgC2w (chatTurn cfgC2w initSession "qqq" ProviderResult.failure).2 "qqq"
        ProviderResult.failure).1 = "B" ∧
    ("A" : String) ≠ "B" := by
  have h := c2_nonrepeating_escalation cfgC2w initSession "qqq" "qqq"
    (by decide) (by decide)
    (by decide) (by decide) (by decide) (by decide) (by decide)
    (by decide) (by decide) (by decide) (by decide) (by decide)
  refine ⟨?_, ?_, by decide⟩
  · rw [h.1]
    decide
  · rw [h.2.2]
    decide

/-- C5 (amended) — a message that tokenizes to the empty set scores 0
(`⟨0,1⟩`, value 0) against every candidate, and the matcher returns no match
for every positive threshold.  (A non-positive threshold — reachable only by
explicitly configuring a negative value, since the handler coerces 0 and
absent to the 0.18 default — accepts the zero score; see the counterexample.) -/
theorem c5_empty_tokens_no_match (cfg : Cfg) (userMsg : String) (q : ℚ)
    (h : tokenize userMsg = []) :
    (∀ itm ∈ semItems cfg,
      overlapScore (tokenize userMsg) (tokenize (itemText itm)) = ⟨0, 1⟩) ∧
    (0 < q → bestSemanticMatch cfg userMsg q = none) := by
  have hzero : ∀ itm : Item,
      overlapScore (tokenize userMsg) (tokenize (itemText itm)) = ⟨0, 1⟩ := by
    intro itm
    rw [h]
    unfold overlapScore
    rw [if_pos (by simp)]
  refine ⟨fun itm _ => hzero itm, ?_⟩
  intro hq
  have hge : Score.geThreshold ⟨0, 1⟩ q = false := by
    unfold Score.geThreshold
    rw [if_neg (not_le.2 (Rat.num_pos.2 hq))]
    simp only [decide_eq_false_iff_not]
    intro hcon
    have hnum : 0 < q.num := Rat.num_pos.2 hq
    push_cast at hcon
    nlinarith [hnum]
  unfold bestSemanticMatch
  cases hitems : semItems cfg with
  | nil => rfl
  | cons x xs =>
    rw [if_neg (by simp)]
    show (match bestLoop (fun itm => overlapScore (tokenize userMsg) (tokenize (itemText itm)))
            none (x :: xs) with
          | some best => if best.2.geThreshold q = true then some best.1 else none
          | none => none) = none
    rw [bestLoop_none_cons, selP_eq_selI]
    simp only [hzero, hge]
    simp

/-- Tenant with a single FAQ, for the matcher-level scenarios of C5. -/
def cfgC5w : Cfg := { faqs := [{ q := "install", a := "Install guide" }] }

/-- Witness for C5 (amended), at threshold 1. -/
theorem c5_empty_tokens_no_match_witness :
    tokenize "???" = [] ∧ ((0 : ℚ) < 1) ∧ bestSemanticMatch cfgC5w "???" 1 = none :=
  ⟨by decide, by norm_num,
    (c5_empty_tokens_no_match cfgC5w "???" 1 (by decide)).2 (by norm_num)⟩

/-- Counterexample to C5 as stated: with a (configured) negative threshold,
a message tokenizing to the empty set still yields a match — the zero score
passes the `best.score >= minScore` check. -/
theorem c5_negative_threshold_counterexample :
    tokenize "???" = [] ∧
    bestSemanticMatch cfgC5w "???" (-1) = some { q := "install", a := "Install guide" } :=
  ⟨by decide, by decide⟩

/-- The first element at an index whose predecessors all fail the predicate
is what `find?` returns. -/
theorem find?_eq_some_of_first {α : Type} (p : α → Bool) :
    ∀ (l : List α) (i : ℕ) (x : α),
      l[i]? = some x → p x = true →
      (∀ (j : ℕ) (y : α), j < i → l[j]? = some y → p y = false) →
      l.find? p = some x := by
  intro l
  induction l with
  | nil =>
    intro i x hx
    simp at hx
  | cons a as ih =>
    intro i x hx hpx hprev
    cases i with
    | zero =>
      simp at hx
      subst hx
      exact List.find?_cons_of_pos _ hpx
    | succ n =>
      have hpa : p a = false := hprev 0 a (Nat.succ_pos n) (by simp)
      rw [List.find?_cons_of_neg _ (by simp [hpa])]
      exact ih n x (by simpa using hx) hpx
        (fun j y hj hy => hprev (j + 1) y (by omega) (by simpa using hy))

/-- C6 (amended) — `getPricingLine` resolves by precedence: (1) the answer of
the first FAQ whose keyword set meets the pricing vocabulary; else (2) the
knowledge map's `pricing_policy` when present and truthy (non-empty); else
(3) the hard-coded default sentence — also when a `pricing_policy` is present
but falsy (see the counterexample). -/
theorem c6_pricing_line_precedence (cfg : Cfg) :
    (∀ (i : ℕ) (f : FAQ), cfg.faqs[i]? = some f → faqHasPricingKeyword f = true →
        (∀ (j : ℕ) (g : FAQ), j < i → cfg.faqs[j]? = some g →
          faqHasPricingKeyword g = false) →
        getPricingLine cfg = f.a) ∧
    ((∀ f ∈ cfg.faqs, faqHasPricingKeyword f = false) →
      (∀ v, cfg.knowledge.lookup "pricing_policy" = some v → kvalTruthy v = true →
          getPricingLine cfg = kvalText v) ∧
      (cfg.knowledge.lookup "pricing_policy" = none →
          getPricingLine cfg = defaultPricingLine) ∧
      (∀ v, cfg.knowledge.lookup "pricing_policy" = some v → kvalTruthy v = false →
          getPricingLine cfg = defaultPricingLine)) := by
  constructor
  · intro i f hf hpf hprev
    unfold getPricingLine
    rw [find?_eq_some_of_first _ cfg.faqs i f hf hpf hprev]
  · intro hall
    have hnone : cfg.faqs.find? faqHasPricingKeyword = none :=
      List.find?_eq_none.2 (fun x hx => by simp [hall x hx])
    refine ⟨?_, ?_, ?_⟩
    · intro v hv htr
      unfold getPricingLine
      simp only [hnone, hv]
      rw [if_pos htr]
    · intro hv
      unfold getPricingLine
      simp only [hnone, hv]
    · intro v hv htr
      unfold getPricingLine
      simp only [hnone, hv]
      rw [if_neg (by simp [htr])]

/-- Tenant whose second FAQ is the first pricing FAQ. -/
def cfgC6w : Cfg :=
  { faqs := [{ q := "", keywords := ["hello"], a := "Nope" },
             { q := "", keywords := ["price"], a := "Pricing answer" }] }

/-- Witness for C6 (amended): the first pricing-keyword FAQ wins. -/
theorem c6_pricing_line_precedence_witness :
    faqHasPricingKeyword { q := "", keywords := ["price"], a := "Pricing answer" } = true ∧
    getPricingLine cfgC6w = "Pricing answer" := by
  refine ⟨by decide, ?_⟩
  apply (c6_pricing_line_precedence cfgC6w).1 1
    { q := "", keywords := ["price"], a := "Pricing answer" }
  · rfl
  · decide
  · intro j g hj hg
    have hj0 : j = 0 := by omega
    subst hj0
    have hg' : some ({ q := "", keywords := ["hello"], a := "Nope" } : FAQ) = some g := hg
    injection hg' with hg2
    subst hg2
    decide

/-- Tenant whose knowledge map has a present but empty `pricing_policy`. -/
def cfgC6x : Cfg := { knowledge := [("pricing_policy", KVal.str "")] }

/-- Counterexample to C6 as stated: the `pricing_policy` field is present,
yet the hard-coded default is returned, because the source tests truthiness
(non-emptiness), not presence. -/
theorem c6_empty_pricing_policy_counterexample :
    cfgC6x.knowledge.lookup "pricing_policy" = some (KVal.str "") ∧
    getPricingLine cfgC6x = defaultPricingLine ∧
    defaultPricingLine ≠ "" :=
  ⟨by decide, by decide, by decide⟩

/-- C8 — an FAQ entry with a missing/empty answer is never surfaced by the
semantic stage: even when it is the best-scoring match, the stage yields no
reply and the pipeline falls through to the later stages. -/
theorem c8_empty_answer_not_surfaced (cfg : Cfg) (s : Session) (m : String)
    (p : ProviderResult) (itm : Item)
    (hr : recallStage cfg s (jsLower m) m = none)
    (hg : greeterStage cfg s (jsLower m) m = none)
    (hb : bestSemanticMatch cfg (jsLower m) (minSemanticEff cfg) = some itm)
    (ha : itm.a = "") :
    semanticStage cfg s (jsLower m) m = none ∧
    chatTurn cfg s m p = laterStages cfg s (jsLower m) m p := by
  have hsem : semanticStage cfg s (jsLower m) m = none := by
    unfold semanticStage
    simp only [hb]
    rw [if_pos ha]
  refine ⟨hsem, ?_⟩
  rw [chatTurn_def]
  simp only [hr, hg, hsem]

/-- Tenant whose only FAQ has an empty answer. -/
def cfgC8w : Cfg := { faqs := [{ q := "install setup", a := "" }] }

/-- Witness for C8: the empty-answered FAQ is the best match for
`"install setup"`, yet the semantic stage yields nothing. -/
theorem c8_empty_answer_not_surfaced_witness :
    bestSemanticMatch cfgC8w (jsLower "install setup") (minSemanticEff cfgC8w) =
      some { q := "install setup", a := "" } ∧
    semanticStage cfgC8w initSession (jsLower "install setup") "install setup" = none ∧
    chatTurn cfgC8w initSession "install setup" ProviderResult.failure =
      laterStages cfgC8w initSession (jsLower "install setup") "install setup"
        ProviderResult.failure := by
  have h := c8_empty_answer_not_surfaced cfgC8w initSession "install setup"
    ProviderResult.failure { q := "install setup", a := "" } (by decide) (by decide)
    (by decide) (by decide)
  exact ⟨by decide, h.1, h.2⟩

/- ---------- non-emptiness of replies (C7) ---------- -/

theorem string_ne_empty_iff (s : String) : s ≠ "" ↔ s.data ≠ [] := by
  constructor
  · intro h hd
    apply h
    cases s with
    | mk data =>
      simp only at hd
      subst hd
      rfl
  · intro h hs
    apply h
    rw [hs]

theorem append_ne_empty_left (a b : String) (h : a ≠ "") : a ++ b ≠ "" := by
  rw [string_ne_empty_iff] at h ⊢
  intro hab
  apply h
  have hd : (a ++ b).data = a.data ++ b.data := rfl
  rw [hd] at hab
  exact (List.append_eq_nil.1 hab).1

theorem jsOr_ne_empty (v : Option String) (d : String) (hd : d ≠ "") : jsOr v d ≠ "" := by
  cases v with
  | none => exact hd
  | some s =>
    show (if s = "" then d else s) ≠ ""
    by_cases hse : s = ""
    · rw [if_pos hse]
      exact hd
    · rw [if_neg hse]
      exact hse

theorem fallback1Eff_ne_empty (cfg : Cfg) : fallback1Eff cfg ≠ "" :=
  jsOr_ne_empty _ _ (by decide)

theorem fallback2Eff_ne_empty (cfg : Cfg) : fallback2Eff cfg ≠ "" :=
  jsOr_ne_empty _ _ (by decide)

theorem recallStage_some_fst (cfg : Cfg) (s : Session) (lower mRaw : String)
    (rs : String × Session) (h : recallStage cfg s lower mRaw = some rs) :
    rs.1 = (match s.history.reverse.find? (fun mm => mm.role == Role.assistant) with
            | some mm =>
              if mm.content = "" then lastNoneTplEff cfg
              else replaceFirst (lastTplEff cfg) tplPlaceholder mm.content
            | none => lastNoneTplEff cfg) := by
  unfold recallStage at h
  split at h
  · injection h with h2
    subst h2
    rfl
  · exact Option.noConfusion h

theorem greeterStage_some_fst (cfg : Cfg) (s : Session) (lower mRaw : String)
    (rs : String × Session) (h : greeterStage cfg s lower mRaw = some rs) :
    rs.1 = (if 0 < menuItemCountEff cfg then
              (if greetingTestEff cfg lower then greeterMessageEff cfg
               else clarifyMessageEff cfg)
                ++ menuFromCommonQuestions cfg (menuItemCountEff cfg).toNat
            else (if greetingTestEff cfg lower then greeterMessageEff cfg
                  else clarifyMessageEff cfg)) := by
  unfold greeterStage at h
  split at h
  · injection h with h2
    subst h2
    rfl
  · exact Option.noConfusion h

theorem semanticStage_some_fst_ne_empty (cfg : Cfg) (s : Session) (lower mRaw : String)
    (rs : String × Session) (h : semanticStage cfg s lower mRaw = some rs) :
    rs.1 ≠ "" := by
  unfold semanticStage at h
  split at h
  · rename_i itm heq
    split at h
    · exact Option.noConfusion h
    · rename_i hne
      injection h with h2
      subst h2
      exact hne
  · exact Option.noConfusion h

/-- The reply built from a provider response: non-empty, because an empty or
missing text falls back to the (never-empty) effective first fallback text. -/
theorem genReply_success_ne_empty (cfg : Cfg) (text : Option String) :
    (let good : Bool := match text with
       | some t => t != ""
       | none => false
     let reply0 := match text with
       | some t => if t = "" then fallback1Eff cfg else t
       | none => fallback1Eff cfg
     if !good && attachMenuEff cfg && 0 < menuItemCountEff cfg then
       reply0 ++ menuFromCommonQuestions cfg (menuItemCountEff cfg).toNat
     else reply0) ≠ "" := by
  cases text with
  | none =>
    show (if !(false : Bool) && attachMenuEff cfg && 0 < menuItemCountEff cfg then
            fallback1Eff cfg ++ menuFromCommonQuestions cfg (menuItemCountEff cfg).toNat
          else fallback1Eff cfg) ≠ ""
    split
    · exact append_ne_empty_left _ _ (fallback1Eff_ne_empty cfg)
    · exact fallback1Eff_ne_empty cfg
  | some t =>
    show (if !(t != "") && attachMenuEff cfg && 0 < menuItemCountEff cfg then
            (if t = "" then fallback1Eff cfg else t)
              ++ menuFromCommonQuestions cfg (menuItemCountEff cfg).toNat
          else (if t = "" then fallback1Eff cfg else t)) ≠ ""
    have hbase : (if t = "" then fallback1Eff cfg else t) ≠ "" := by
      split
      · exact fallback1Eff_ne_empty cfg
      · assumption
    split
    · exact append_ne_empty_left _ _ hbase
    · exact hbase

theorem generativeStage_fst_ne_empty (cfg : Cfg) (s : Session) (lower mRaw : String)
    (p : ProviderResult) : (generativeStage cfg s lower mRaw p).1 ≠ "" := by
  unfold generativeStage
  cases p with
  | success content =>
    exact genReply_success_ne_empty cfg
      (if testPricing lower then some (getPricingLine cfg) else content.map jsTrim)
  | failure =>
    by_cases h : (enableNRFEff cfg && !s.usedFallbackOnce) = true
    · rw [if_pos h]
      show (if !s.errorNotified && errorNoteEff cfg != "" then
              (if attachMenuEff cfg && 0 < menuItemCountEff cfg then
                 fallback1Eff cfg ++ menuFromCommonQuestions cfg (menuItemCountEff cfg).toNat
               else fallback1Eff cfg) ++ " " ++ errorNoteEff cfg
            else
              (if attachMenuEff cfg && 0 < menuItemCountEff cfg then
                 fallback1Eff cfg ++ menuFromCommonQuestions cfg (menuItemCountEff cfg).toNat
               else fallback1Eff cfg)) ≠ ""
      have hbase : (if attachMenuEff cfg && 0 < menuItemCountEff cfg then
          fallback1Eff cfg ++ menuFromCommonQuestions cfg (menuItemCountEff cfg).toNat
          else fallback1Eff cfg) ≠ "" := by
        split
        · exact append_ne_empty_left _ _ (fallback1Eff_ne_empty cfg)
        · exact fallback1Eff_ne_empty cfg
      split
      · exact append_ne_empty_left _ _ (append_ne_empty_left _ _ hbase)
      · exact hbase
    · rw [if_neg h]
      show (if attachMenuEff cfg && 0 < menuItemCountEff cfg then
              fallback2Eff cfg ++ menuFromCommonQuestions cfg (menuItemCountEff cfg).toNat
            else fallback2Eff cfg) ≠ ""
      split
      · exact append_ne_empty_left _ _ (fallback2Eff_ne_empty cfg)
      · exact fallback2Eff_ne_empty cfg

/-- C7 (amended) — whenever the tenant's configured greeter and clarify
messages, no-last-message template, and resolved pricing line are non-empty,
the chat turn's reply is empty only when (a) the turn is resolved by the
closing stage and the tenant's closing message is itself configured empty,
or (b) the turn is resolved by the recall stage and the JS `$`-substitution
of the recalled (non-empty) assistant content into the last-message template
produces the empty string. -/
theorem c7_nonempty_reply (cfg : Cfg) (s : Session) (m : String) (p : ProviderResult)
    (h1 : greeterMessageEff cfg ≠ "") (h2 : clarifyMessageEff cfg ≠ "")
    (h4 : lastNoneTplEff cfg ≠ "")
    (h5 : getPricingLine cfg ≠ "") :
    (chatTurn cfg s m p).1 = "" →
      (resolvedStage cfg s m p = Stage.closing ∧ cfg.closingMessage.getD "" = "") ∨
      (resolvedStage cfg s m p = Stage.recall ∧
        ∃ mm, s.history.reverse.find? (fun x => x.role == Role.assistant) = some mm ∧
          mm.content ≠ "" ∧
          replaceFirst (lastTplEff cfg) tplPlaceholder mm.content = "") := by
  intro hempty
  rw [chatTurn_def] at hempty
  cases hr : recallStage cfg s (jsLower m) m with
  | some rs =>
    simp only [hr] at hempty
    rw [recallStage_some_fst cfg s (jsLower m) m rs hr] at hempty
    refine Or.inr ⟨?_, ?_⟩
    · rw [resolvedStage_def, if_pos (recallStage_isSome_cond cfg s (jsLower m) m rs hr)]
    · cases hfind : s.history.reverse.find? (fun mm => mm.role == Role.assistant) with
      | none =>
        simp only [hfind] at hempty
        exact absurd hempty h4
      | some mm =>
        simp only [hfind] at hempty
        by_cases hc : mm.content = ""
        · rw [if_pos hc] at hempty
          exact absurd hempty h4
        · rw [if_neg hc] at hempty
          exact ⟨mm, rfl, hc, hempty⟩
  | none =>
    simp only [hr] at hempty
    cases hg : greeterStage cfg s (jsLower m) m with
    | some rs =>
      simp only [hg] at hempty
      rw [greeterStage_some_fst cfg s (jsLower m) m rs hg] at hempty
      have hbase : (if greetingTestEff cfg (jsLower m) then greeterMessageEff cfg
          else clarifyMessageEff cfg) ≠ "" := by
        by_cases hgt : greetingTestEff cfg (jsLower m) = true
        · rw [if_pos hgt]
          exact h1
        · rw [if_neg hgt]
          exact h2
      by_cases hm : 0 < menuItemCountEff cfg
      · rw [if_pos hm] at hempty
        exact absurd hempty (append_ne_empty_left _ _ hbase)
      · rw [if_neg hm] at hempty
        exact absurd hempty hbase
    | none =>
      simp only [hg] at hempty
      cases hsem : semanticStage cfg s (jsLower m) m with
      | some rs =>
        simp only [hsem] at hempty
        exact absurd hempty (semanticStage_some_fst_ne_empty cfg s (jsLower m) m rs hsem)
      | none =>
        simp only [hsem] at hempty
        unfold laterStages at hempty
        cases hp : pricingStage cfg s (jsLower m) m with
        | some rs =>
          simp only [hp] at hempty
          rw [(pricingStage_some cfg s (jsLower m) m rs hp).1] at hempty
          exact absurd hempty h5
        | none =>
          simp only [hp] at hempty
          cases hc : closingStage cfg s (jsLower m) m with
          | some rs =>
            simp only [hc] at hempty
            rw [(closingStage_some cfg s (jsLower m) m rs hc).1] at hempty
            refine Or.inl ⟨?_, hempty⟩
            rw [resolvedStage_def]
            rw [if_neg (by simp [(recallStage_eq_none_iff cfg s (jsLower m) m).1 hr]),
              if_neg (by simp [(greeterStage_eq_none_iff cfg s (jsLower m) m).1 hg]),
              if_neg (by simp [(semanticStage_eq_none_iff cfg s (jsLower m) m).1 hsem]),
              if_neg (by simp [(pricingStage_eq_none_iff cfg s (jsLower m) m).1 hp]),
              if_pos (closingStage_isSome_cond cfg s (jsLower m) m rs hc)]
          | none =>
            simp only [hc] at hempty
            exact absurd hempty (generativeStage_fst_ne_empty cfg s (jsLower m) m p)

/-- Tenant whose greeter message is explicitly configured empty. -/
def cfgC7x : Cfg := { behavior := some { greeterMessage := some "" } }

/-- Tenant whose last-message template is exactly the placeholder, and a
session whose recalled assistant content is a lone JS dollar-backtick
substitution sequence. -/
def cfgC7y : Cfg :=
  { behavior := some { lastMessageTemplate := some "\x7b\x7btext\x7d\x7d" } }

/-- Prior session for the recall counterexample of C7. -/
def sessC7y : Session := { history := [⟨Role.assistant, "$\x60"⟩] }

/-- Counterexample to C7 as stated: a greeting turn (not the closing stage)
can return the empty reply when the configured greeter message is empty and
there are no common questions to attach; likewise a recall turn can return
the empty reply from a non-empty template, because the `$`-substitution of
the recalled content (here a lone dollar-backtick, expanding to the text
before the match, which is empty) collapses to the empty string. -/
theorem c7_empty_greeter_reply_counterexample :
    ((chatTurn cfgC7x initSession "hi" ProviderResult.failure).1 = "" ∧
     resolvedStage cfgC7x initSession "hi" ProviderResult.failure = Stage.greeter ∧
     Stage.greeter ≠ Stage.closing) ∧
    ((chatTurn cfgC7y sessC7y "what was your last message" ProviderResult.failure).1 = "" ∧
     resolvedStage cfgC7y sessC7y "what was your last message" ProviderResult.failure =
       Stage.recall ∧
     lastTplEff cfgC7y ≠ "" ∧ Stage.recall ≠ Stage.closing) :=
  ⟨⟨by decide, by decide, by decide⟩, ⟨by decide, by decide, by decide, by decide⟩⟩

/-- Witness for C7 (amended), on the default configuration: the only empty
reply is the closing stage's pass-through of the (default empty) closing
message. -/
theorem c7_nonempty_reply_witness :
    resolvedStage ({} : Cfg) { initSession with askedExtra := true } "nothing else thanks"
      ProviderResult.failure = Stage.closing ∧
    (({} : Cfg).closingMessage.getD "") = "" := by
  have h := c7_nonempty_reply ({} : Cfg) { initSession with askedExtra := true }
    "nothing else thanks" ProviderResult.failure (by decide) (by decide) (by decide)
    (by decide) (by decide)
  rcases h with h | h
  · exact h
  · exact absurd h.1 (by decide)
